import Mathlib

/-!
Shallow embedding of the messaging/tracking backend in `main.py` (FastAPI +
Supabase service for test-drive bookings, WhatsApp webhook routing and signed
tracking links).

Conventions of the embedding:
* Python `str` values are modelled as `List Char`; `bytes` values as
  `List Nat` with every element `< 256`.
* The external row store (Supabase) is modelled as in-memory lists of typed
  rows; `sb_insert` appends, `sb_upsert` replaces by its conflict key, and
  `sb_select_one` is `List.find?` (first matching row, `limit 1`).
* Every outbound HTTP call (row store, WhatsApp send API) can fail with a
  non-2xx response, which the helpers turn into an HTTP 502 exception.  The
  environment carries `opFails : Nat → Bool`, consulted on a per-call counter,
  so a theorem can quantify over every pattern of external failures.
* `hmac.new(key, msg, hashlib.sha256).digest()` is modelled by an abstract
  environment function `hmacSha256 : List Nat → List Nat → List Nat`; the
  claims under verification depend only on its determinism, never on the
  internals of SHA-256.  `hexdigest()` is `hexChars` of that digest.
* Timestamps (`time.time()`, `datetime.now(timezone.utc)`) are integer epoch
  seconds.  ISO rendering of stored timestamps is order-irrelevant here
  because the code never parses a stored timestamp back.
-/

/-! ### String and character utilities -/

/-- Convert a Lean string literal to the `List Char` representation used for
Python strings throughout this embedding. -/
def strOf (s : String) : List Char := s.data

/-- The character `LEFT CURLY BRACKET`. -/
def lbrace : Char := Char.ofNat 123

/-- The character `RIGHT CURLY BRACKET`. -/
def rbrace : Char := Char.ofNat 125

/-- Python `s.rstrip(x)` for a single strip character. -/
def rstripChar (x : Char) (l : List Char) : List Char :=
  (l.reverse.dropWhile (fun c => c = x)).reverse

/-- Python truthiness of an optional string: `None` and `""` are falsy. -/
def truthy (o : Option (List Char)) : Bool :=
  match o with
  | none => false
  | some s => decide (s ≠ [])

/-- Python `a or b` for an optional string with a string default. -/
def orDefault (o : Option (List Char)) (d : List Char) : List Char :=
  match o with
  | none => d
  | some s => if s = [] then d else s

/-! ### Lead-score helper (main.py line 28) -/

/-- Embedding of `_label_from_numeric`:
`return "Hot" if score >= 10 else ("Warm" if score >= 5 else "Cold")`. -/
def label_from_numeric (score : Int) : List Char :=
  if score ≥ 10 then strOf "Hot" else if score ≥ 5 then strOf "Warm" else strOf "Cold"

/-! ### Phone normalization (main.py lines 251-258) -/

/-- ASCII decimal digit test, the embedding of `\d` in the regexes of the source
(the claims only exercise ASCII inputs). -/
def isDig (c : Char) : Bool := c.isDigit

/-- Embedding of `re.sub(r"[^\d+]", "", raw)`: keep only digits and `+`. -/
def keepDigitsPlus (l : List Char) : List Char :=
  l.filter (fun c => isDig c || c = '+')

/-- Embedding of `re.sub(r"[^\d]", "", s)`: keep only digits. -/
def keepDigits (l : List Char) : List Char :=
  l.filter isDig

/-- Embedding of the anchored regex `^\+\d{7,15}$` (`E164_RE.match`). -/
def matchE164 : List Char → Bool
  | '+' :: rest => rest.all isDig && decide (7 ≤ rest.length) && decide (rest.length ≤ 15)
  | _ => false

/-- Embedding of `to_e164` (main.py lines 253-258). -/
def to_e164 (raw : Option (List Char)) : Option (List Char) :=
  match raw with
  | none => none
  | some r =>
    if r = [] then none
    else
      let digits := keepDigitsPlus r
      let digits :=
        if digits.head? = some '+' then digits else '+' :: keepDigits digits
      if matchE164 digits then some digits else none

/-! ### Hex digests -/

/-- Lowercase hex alphabet. -/
def hexAlphabet : List Char := strOf "0123456789abcdef"

/-- Lowercase hex rendering of a byte string: the embedding of
the `hashlib` method `hexdigest()` applied to a digest. -/
def hexChars (bs : List Nat) : List Char :=
  bs.foldr (fun b acc => hexAlphabet.getD (b / 16) '0' :: hexAlphabet.getD (b % 16) '0' :: acc) []

/-! ### URL-safe base64 (main.py lines 260-264)

`_b64u(b)` is `base64.urlsafe_b64encode(b).decode().rstrip("=")` and
`_u64(s)` is `base64.urlsafe_b64decode(s + "=" * (-len(s) % 4))`. -/

/-- URL-safe base64 alphabet. -/
def b64alphabet : List Char :=
  strOf "ABCDEFGHIJKLMNOPQRSTUVWXYZabcdefghijklmnopqrstuvwxyz0123456789-_"

/-- Alphabet lookup for a 6-bit group. -/
def b64tbl (n : Nat) : Char := b64alphabet.getD n 'A'

/-- Position of a character in the base64 alphabet. -/
def b64idx (c : Char) : Option Nat := b64alphabet.findIdx? (fun a => a = c)

/-- Padded URL-safe base64 encoding of a byte string, the embedding of
`base64.urlsafe_b64encode`. -/
def b64encode : List Nat → List Char
  | [] => []
  | [a] => [b64tbl (a / 4), b64tbl (a % 4 * 16), '=', '=']
  | [a, b] => [b64tbl (a / 4), b64tbl (a % 4 * 16 + b / 16), b64tbl (b % 16 * 4), '=']
  | a :: b :: c :: rest =>
    b64tbl (a / 4) :: b64tbl (a % 4 * 16 + b / 16) :: b64tbl (b % 16 * 4 + c / 64) ::
      b64tbl (c % 64) :: b64encode rest

/-- Decode a base64 string four characters at a time, with padding allowed
only in the final quantum (the behaviour of `binascii` on well-formed
input). -/
def b64decodeChunks : List Char → Option (List Nat)
  | [] => some []
  | c1 :: c2 :: c3 :: c4 :: rest =>
    match b64idx c1, b64idx c2 with
    | some x, some y =>
      if c3 = '=' then
        if c4 = '=' ∧ rest = [] then some [x * 4 + y / 16] else none
      else
        match b64idx c3 with
        | some z =>
          if c4 = '=' then
            if rest = [] then some [x * 4 + y / 16, y % 16 * 16 + z / 4] else none
          else
            match b64idx c4 with
            | some w =>
              match b64decodeChunks rest with
              | some t => some ((x * 4 + y / 16) :: (y % 16 * 16 + z / 4) :: (z % 4 * 64 + w) :: t)
              | none => none
            | none => none
        | none => none
    | _, _ => none
  | _ => none

/-- Embedding of `base64.urlsafe_b64decode`: the CPython default
(non-strict) mode discards characters outside the alphabet and `=` before
decoding; decoding then proceeds in four-character quanta.  Only outputs of
`b64encode` are exercised by the theorems below, where the discard step is
the identity. -/
def b64decode (s : List Char) : Option (List Nat) :=
  b64decodeChunks (s.filter (fun c => c ∈ b64alphabet ∨ c = '='))

/-- Embedding of `_b64u` (main.py line 260). -/
def b64u (b : List Nat) : List Char := rstripChar '=' (b64encode b)

/-- Embedding of `_u64` (main.py line 263): re-pad to a multiple of four
characters, then decode. -/
def u64 (s : List Char) : Option (List Nat) :=
  b64decode (s ++ List.replicate ((4 - s.length % 4) % 4) '=')

/-! ### UTF-8 (the `.encode()` / implicit decode in `json.loads`) -/

/-- UTF-8 encoding of a single scalar value. -/
def utf8EncodeChar (c : Char) : List Nat :=
  let v := c.toNat
  if v < 128 then [v]
  else if v < 2048 then [192 + v / 64, 128 + v % 64]
  else if v < 65536 then [224 + v / 4096, 128 + v / 64 % 64, 128 + v % 64]
  else [240 + v / 262144, 128 + v / 4096 % 64, 128 + v / 64 % 64, 128 + v % 64]

/-- UTF-8 encoding of a string, the embedding of Python `str.encode()`. -/
def utf8Encode (s : List Char) : List Nat :=
  s.foldr (fun c acc => utf8EncodeChar c ++ acc) []

/-- Decode one UTF-8 scalar from the front of a byte string, rejecting
truncated sequences, stray continuation bytes, overlong forms, surrogates
and out-of-range values, as the strict CPython UTF-8 decoder does. -/
def utf8DecodeStep : List Nat → Option (Char × List Nat)
  | [] => none
  | b :: bs =>
    if b < 128 then some (Char.ofNat b, bs)
    else if b < 192 then none
    else if b < 224 then
      match bs with
      | b2 :: bs2 =>
        if 128 ≤ b2 ∧ b2 < 192 then
          if 128 ≤ (b - 192) * 64 + (b2 - 128) then
            some (Char.ofNat ((b - 192) * 64 + (b2 - 128)), bs2)
          else none
        else none
      | [] => none
    else if b < 240 then
      match bs with
      | b2 :: b3 :: bs3 =>
        if (128 ≤ b2 ∧ b2 < 192) ∧ (128 ≤ b3 ∧ b3 < 192) then
          if 2048 ≤ (b - 224) * 4096 + (b2 - 128) * 64 + (b3 - 128) ∧
              ¬(55296 ≤ (b - 224) * 4096 + (b2 - 128) * 64 + (b3 - 128) ∧
                (b - 224) * 4096 + (b2 - 128) * 64 + (b3 - 128) < 57344) then
            some (Char.ofNat ((b - 224) * 4096 + (b2 - 128) * 64 + (b3 - 128)), bs3)
          else none
        else none
      | _ => none
    else if b < 248 then
      match bs with
      | b2 :: b3 :: b4 :: bs4 =>
        if (128 ≤ b2 ∧ b2 < 192) ∧ (128 ≤ b3 ∧ b3 < 192) ∧ (128 ≤ b4 ∧ b4 < 192) then
          if 65536 ≤ (b - 240) * 262144 + (b2 - 128) * 4096 + (b3 - 128) * 64 + (b4 - 128) ∧
              (b - 240) * 262144 + (b2 - 128) * 4096 + (b3 - 128) * 64 + (b4 - 128) < 1114112 then
            some (Char.ofNat ((b - 240) * 262144 + (b2 - 128) * 4096 + (b3 - 128) * 64 + (b4 - 128)), bs4)
          else none
        else none
      | _ => none
    else none

/-- Fuel-driven UTF-8 decoding loop (each step consumes at least one byte,
so `fuel = length` always suffices). -/
def utf8DecodeAux : Nat → List Nat → Option (List Char)
  | _, [] => some []
  | 0, _ :: _ => none
  | fuel + 1, b :: bs =>
    match utf8DecodeStep (b :: bs) with
    | some (c, rest) =>
      match utf8DecodeAux fuel rest with
      | some cs => some (c :: cs)
      | none => none
    | none => none

/-- UTF-8 decoding of a byte string, the embedding of `bytes.decode()`. -/
def utf8Decode (bs : List Nat) : Option (List Char) :=
  utf8DecodeAux bs.length bs

/-! ### JSON serialization of the token payload

`make_token` serializes its payload dict with
`json.dumps(payload, separators=(",",":"), ensure_ascii=False)`; the only
payload shape ever issued (built by `build_tracked`, main.py line 286) is
`{"rid": …, "wa_id": …, "url": …, "kind": …, "exp": …}` in that insertion
order.  `verify_token` reads it back with `json.loads`; the parser below is
the restriction of `json.loads` to this object shape. -/

/-- The logical token payload (spec §3 `TrackingToken`). -/
structure TokenPayload where
  rid : List Char
  wa_id : List Char
  url : List Char
  kind : List Char
  exp : Nat
deriving DecidableEq

/-- Escaping of one character as performed by `json.dumps` with
`ensure_ascii=False`: short escapes for quote, backslash and the five named
control characters, `\u00xx` for the remaining control characters, and
everything else verbatim. -/
def jsonEscapeChar (c : Char) : List Char :=
  if c = '"' then ['\\', '"']
  else if c = '\\' then ['\\', '\\']
  else if c.toNat = 8 then ['\\', 'b']
  else if c.toNat = 9 then ['\\', 't']
  else if c.toNat = 10 then ['\\', 'n']
  else if c.toNat = 12 then ['\\', 'f']
  else if c.toNat = 13 then ['\\', 'r']
  else if c.toNat < 32 then
    ['\\', 'u', '0', '0', hexAlphabet.getD (c.toNat / 16) '0', hexAlphabet.getD (c.toNat % 16) '0']
  else [c]

/-- JSON string-body escaping. -/
def jsonEscape (s : List Char) : List Char :=
  s.foldr (fun c acc => jsonEscapeChar c ++ acc) []

/-- A JSON string literal: quote, escaped body, quote. -/
def jsonQuote (s : List Char) : List Char :=
  '"' :: jsonEscape s ++ ['"']

/-- Decimal digits of a natural number (fuel-driven so that it reduces
definitionally; `fuel = n + 1` always suffices). -/
def natToCharsAux : Nat → Nat → List Char
  | 0, _ => []
  | fuel + 1, n =>
    if n < 10 then [Nat.digitChar n]
    else natToCharsAux fuel (n / 10) ++ [Nat.digitChar (n % 10)]

/-- Decimal rendering of a natural number, as `json.dumps` prints an `int`. -/
def natToChars (n : Nat) : List Char := natToCharsAux (n + 1) n

/-- Embedding of the `json.dumps(payload, separators=(",",":"),
ensure_ascii=False)` call in `make_token` on the payload shape issued by
`build_tracked`. -/
def dumpsTokenPayload (p : TokenPayload) : List Char :=
  [lbrace] ++ strOf "\"rid\":" ++ jsonQuote p.rid
    ++ strOf ",\"wa_id\":" ++ jsonQuote p.wa_id
    ++ strOf ",\"url\":" ++ jsonQuote p.url
    ++ strOf ",\"kind\":" ++ jsonQuote p.kind
    ++ strOf ",\"exp\":" ++ natToChars p.exp ++ [rbrace]

/-- Consume an expected literal prefix. -/
def dropLit : List Char → List Char → Option (List Char)
  | [], s => some s
  | _ :: _, [] => none
  | c :: cs, d :: ds => if c = d then dropLit cs ds else none

/-- Value of a lowercase hex digit (the case emitted by `json.dumps`). -/
def hexVal (c : Char) : Option Nat := hexAlphabet.findIdx? (fun a => a = c)

/-- Decoding of a short (single-letter) JSON escape. -/
def decodeShortEsc (e : Char) : Option Char :=
  if e = '"' then some '"'
  else if e = '\\' then some '\\'
  else if e = '/' then some '/'
  else if e = 'b' then some (Char.ofNat 8)
  else if e = 't' then some (Char.ofNat 9)
  else if e = 'n' then some (Char.ofNat 10)
  else if e = 'f' then some (Char.ofNat 12)
  else if e = 'r' then some (Char.ofNat 13)
  else none

def parseJStringAux : Nat → List Char → Option (List Char × List Char)
  | _, [] => none
  | 0, _ :: _ => none
  | fuel + 1, c :: rest =>
    if c = '"' then some ([], rest)
    else if c = '\\' then
      match rest with
      | [] => none
      | e :: rest2 =>
        if e = 'u' then
          match rest2 with
          | h1 :: h2 :: h3 :: h4 :: rest3 =>
            match hexVal h1, hexVal h2, hexVal h3, hexVal h4 with
            | some a, some b, some c3, some d =>
              match parseJStringAux fuel rest3 with
              | some pr => some (Char.ofNat (a * 4096 + b * 256 + c3 * 16 + d) :: pr.1, pr.2)
              | none => none
            | _, _, _, _ => none
          | _ => none
        else
          match decodeShortEsc e with
          | some dch =>
            match parseJStringAux fuel rest2 with
            | some pr => some (dch :: pr.1, pr.2)
            | none => none
          | none => none
    else if c.toNat < 32 then none
    else
      match parseJStringAux fuel rest with
      | some pr => some (c :: pr.1, pr.2)
      | none => none

/-- Parse a JSON string body (after the opening quote): returns the decoded
body and the input following the closing quote.  Raw control characters are
rejected (the json default `strict=True`); `\uXXXX` escapes outside the
basic-multilingual-plane pairing rules only arise for the control characters
`json.dumps` emits, which is all this parser is exercised on.  The fuel
drops by one per decoded character, so the input length always suffices. -/
def parseJString (s : List Char) : Option (List Char × List Char) :=
  parseJStringAux s.length s

/-- Parse a quoted JSON string (opening quote included). -/
def parseQuoted : List Char → Option (List Char × List Char)
  | '"' :: rest => parseJString rest
  | _ => none

/-- Accumulate decimal digits. -/
def parseNatAux (acc : Nat) : List Char → Nat × List Char
  | c :: cs => if isDig c then parseNatAux (acc * 10 + (c.toNat - 48)) cs else (acc, c :: cs)
  | [] => (acc, [])

/-- Parse a nonempty run of decimal digits. -/
def parseNat : List Char → Option (Nat × List Char)
  | c :: cs => if isDig c then some (parseNatAux (c.toNat - 48) cs) else none
  | [] => none

/-- Restriction of `json.loads` to the serialized token-payload shape:
parses `{"rid":…,"wa_id":…,"url":…,"kind":…,"exp":…}`. -/
def parseTokenPayload (s : List Char) : Option TokenPayload := do
  let s1 ← dropLit (lbrace :: strOf "\"rid\":") s
  let (rid, s2) ← parseQuoted s1
  let s3 ← dropLit (strOf ",\"wa_id\":") s2
  let (wa, s4) ← parseQuoted s3
  let s5 ← dropLit (strOf ",\"url\":") s4
  let (url, s6) ← parseQuoted s5
  let s7 ← dropLit (strOf ",\"kind\":") s6
  let (kind, s8) ← parseQuoted s7
  let s9 ← dropLit (strOf ",\"exp\":") s8
  let (e, s10) ← parseNat s9
  match s10 with
  | [r] => if r = rbrace then some ⟨rid, wa, url, kind, e⟩ else none
  | _ => none

/-- Embedding of the `json.loads(body)` call in `verify_token` (bytes input
is UTF-8 decoded first). -/
def loadsTokenPayload (body : List Nat) : Option TokenPayload :=
  match utf8Decode body with
  | some s => parseTokenPayload s
  | none => none

/-! ### TokenCodec (main.py lines 266-288) -/

/-- Process-wide configuration of the token codec: the signing key
(`TRACKING_SIGNING_KEY`), the tracking base URL (`TRACKING_BASE_URL`, already
slash-suffixed at startup, line 55), and the abstract HMAC-SHA256
primitive. -/
structure TokenEnv where
  signingKey : List Char
  trackingBaseUrl : List Char
  hmacSha256 : List Nat → List Nat → List Nat

/-- Embedding of `make_token` (main.py lines 266-269). -/
def make_token (env : TokenEnv) (p : TokenPayload) : List Char :=
  let body := utf8Encode (dumpsTokenPayload p)
  let sig := env.hmacSha256 (utf8Encode env.signingKey) body
  b64u body ++ '.' :: b64u sig

/-- Failure modes of `verify_token`: `badSignature` and `expired` are the
two `ValueError`s it raises itself; `malformed` stands for the exceptions
escaping from `token.split(".", 1)` unpacking, `_u64`, or `json.loads`. -/
inductive VerifyErr
  | badSignature
  | expired
  | malformed
deriving DecidableEq

/-- Embedding of `token.split(".", 1)` unpacked into exactly two parts. -/
def splitDot : List Char → Option (List Char × List Char)
  | [] => none
  | c :: rest =>
    if c = '.' then some ([], rest)
    else
      match splitDot rest with
      | some pr => some (c :: pr.1, pr.2)
      | none => none

/-- Embedding of `verify_token` (main.py lines 271-280).  `now` is
`int(time.time())` at verification time.  The serialized payloads issued by
this program always carry an `"exp"` key, so the `"exp" in data` guard is
always true on them. -/
def verify_token (env : TokenEnv) (now : Nat) (token : List Char) :
    Except VerifyErr TokenPayload :=
  match splitDot token with
  | none => .error .malformed
  | some (p1, p2) =>
    match u64 p1, u64 p2 with
    | some body, some sig =>
      let good := env.hmacSha256 (utf8Encode env.signingKey) body
      if sig = good then
        match loadsTokenPayload body with
        | some data => if now > data.exp then .error .expired else .ok data
        | none => .error .malformed
      else .error .badSignature
    | _, _ => .error .malformed

/-- Embedding of `build_tracked` (main.py lines 282-288); `now` is
`int(time.time())` at issue time.  Source defaults: `kind="wa_resource"`,
`ttl_days=7`. -/
def build_tracked (env : TokenEnv) (now : Nat) (url : Option (List Char))
    (rid wa_id : List Char) (kind : List Char) (ttl_days : Nat) :
    Option (List Char) :=
  if truthy url = false then none
  else
    let exp := now + ttl_days * 86400
    let token := make_token env
      { rid := rid, wa_id := wa_id, url := url.getD [], kind := kind, exp := exp }
    let base := rstripChar '/' env.trackingBaseUrl ++ [ '/' ]
    some (base ++ 't' :: '/' :: token)

/-! ### Webhook payload shape (main.py lines 630-721)

The parsed JSON body of a WhatsApp event delivery: a list of entries, each
with change records, each carrying inbound message objects.  Only the fields
the handler reads are modelled. -/

/-- One inbound message object: `m.get("type")`, `m.get("from")`,
`m.get("id")`, `(m.get("context") or {}).get("id")`,
`(m.get("interactive") or {}).get("button_reply", {}).get("title")`, and
`(m.get("text") or {}).get("body", "")`. -/
structure WaMsg where
  mtype : Option (List Char)
  from_ : Option (List Char)
  id : Option (List Char)
  contextId : Option (List Char)
  interactiveTitle : Option (List Char)
  textBody : Option (List Char)
deriving DecidableEq

/-- The `value` of a change record, holding `v.get("messages", [])`. -/
structure WaValue where
  messages : List WaMsg
deriving DecidableEq

/-- One element of `entry.get("changes", [])`. -/
structure WaChange where
  value : WaValue
deriving DecidableEq

/-- One element of `payload.get("entry", [])`. -/
structure WaEntry where
  changes : List WaChange
deriving DecidableEq

/-- The parsed webhook JSON body. -/
structure WaPayload where
  entry : List WaEntry
deriving DecidableEq

/-! ### Row types of the four logical tables (spec §3, §6) -/

/-- A `wa_request_links` row (ConversationBinding).  `bound_at`/`expires_at`
are epoch seconds (the code stores their ISO rendering and never reads them
back). -/
structure LinkRow where
  wa_id : List Char
  request_id : List Char
  active : Bool
  bound_at : Nat
  expires_at : Nat
  bound_via : List Char
deriving DecidableEq

/-- A `wa_outbound_log` row (OutboundLogEntry). -/
structure OutboundRow where
  message_id : List Char
  wa_id : List Char
  request_id : List Char
  template_name : List Char
deriving DecidableEq

/-- A `wa_messages` row (MessageLogEntry).  `payload` is present on the rows
the handler inserts with a `"payload": m` key. -/
structure MsgRow where
  message_id : Option (List Char)
  request_id : Option (List Char)
  wa_id : Option (List Char)
  direction : List Char
  body_text : Option (List Char)
  payload : Option WaMsg
deriving DecidableEq

/-- A `wa_conversations` row; optional fields are columns a partial upsert
may never have provided. -/
structure ConvRow where
  conversation_id : List Char
  request_id : Option (List Char)
  wa_id : Option (List Char)
  started_at : Option Nat
  last_message_at : Option Nat
  message_count : Option Nat
  last_direction : Option (List Char)
  rolling_summary : Option (List Char)
  updated_at : Option Nat
deriving DecidableEq

/-- A `bookings` row (BookingRequest), exactly the columns
`testdrive_webhook` inserts plus the mutable `wait_until` column
`update_booking` may set. -/
structure BookingRow where
  request_id : List Char
  full_name : List Char
  email : List Char
  vehicle : List Char
  booking_date : List Char
  location : List Char
  current_vehicle : List Char
  time_frame : List Char
  generated_subject : List Char
  generated_body : List Char
  lead_score : List Char
  numeric_lead_score : Int
  booking_timestamp : Nat
  action_status : List Char
  sales_notes : List Char
  phone : Option (List Char)
  phone_e164 : Option (List Char)
  wait_until : Option (List Char)
deriving DecidableEq

/-- An email handed to the SMTP collaborator. -/
structure EmailRow where
  to_addr : List Char
  subject : List Char
deriving DecidableEq

/-- The externally persisted state: the four Supabase tables, the emails
handed to SMTP, and the fire-and-forget WhatsApp kickoff tasks scheduled by
`asyncio.create_task(_kick_wa_session(request_id))`. -/
structure Db where
  bookings : List BookingRow
  wa_outbound_log : List OutboundRow
  wa_request_links : List LinkRow
  wa_messages : List MsgRow
  wa_conversations : List ConvRow
  custEmails : List EmailRow
  teamEmails : List EmailRow
  kickoffs : List (List Char)
deriving DecidableEq

/-- State threaded through a request handler: the store plus the counter of
external calls made so far (used to index failure injection and
platform-assigned message ids). -/
structure St where
  db : Db
  ctr : Nat
deriving DecidableEq

/-- Outcome of a handler or helper: a value with the post-state, or an
uncaught exception (HTTP status + detail) with the state reached so far —
side effects performed before a Python exception persist. -/
inductive Res (α : Type) where
  | ok (a : α) (s : St)
  | err (status : Nat) (detail : List Char) (s : St)
deriving DecidableEq

/-- Process-wide configuration and external-world behaviour:
`WA_APP_SECRET`, the abstract HMAC-SHA256 primitive, the current time, the
outcome of each external call (`opFails n` = the `n`-th call returns
non-2xx/raises), the platform message id returned by the `n`-th call when it
is a send, `str(uuid.uuid4())`, the LLM completion text, and the
email-related configuration flags. -/
structure Env where
  wa_app_secret : List Char
  hmacSha256 : List Nat → List Nat → List Nat
  now : Nat
  opFails : Nat → Bool
  msgId : Nat → List Char
  uuid4 : List Char
  llmBody : List Char
  teamCfg : Bool
  emailCfgOk : Bool

/-- Advance the external-call counter. -/
def bump (s : St) : St := { s with ctr := s.ctr + 1 }

/-! ### Row-store and send operations

Each is one external HTTP call: it consumes one counter tick and either
raises (502, as `sb_insert`/`sb_upsert`/`sb_select_one`/`wa_send_text` do on
a non-2xx response) or performs its effect. -/

/-- `sb_select_one("wa_outbound_log", {"message_id": ctx}, select="request_id")`. -/
def dbSelectOutbound (env : Env) (ctx : List Char) (s : St) : Res (Option OutboundRow) :=
  if env.opFails s.ctr then Res.err 502 (strOf "db error") (bump s)
  else Res.ok (s.db.wa_outbound_log.find? (fun r => r.message_id = ctx)) (bump s)

/-- `sb_select_one("wa_request_links", {"wa_id": wa_id}, …)`; a `None`
filter value matches no row. -/
def dbSelectLink (env : Env) (waId : Option (List Char)) (s : St) : Res (Option LinkRow) :=
  if env.opFails s.ctr then Res.err 502 (strOf "db error") (bump s)
  else Res.ok (s.db.wa_request_links.find? (fun r => some r.wa_id = waId)) (bump s)

/-- `sb_select_one(SUPABASE_TABLE_NAME, {"request_id": rid}, …)`. -/
def dbSelectBookingByRid (env : Env) (rid : List Char) (s : St) : Res (Option BookingRow) :=
  if env.opFails s.ctr then Res.err 502 (strOf "db error") (bump s)
  else Res.ok (s.db.bookings.find? (fun r => r.request_id = rid)) (bump s)

/-- `sb_select_one("wa_conversations", {"conversation_id": rid},
select="rolling_summary")`. -/
def dbSelectConv (env : Env) (cid : List Char) (s : St) : Res (Option ConvRow) :=
  if env.opFails s.ctr then Res.err 502 (strOf "db error") (bump s)
  else Res.ok (s.db.wa_conversations.find? (fun r => r.conversation_id = cid)) (bump s)

/-- Upsert keyed on `wa_id` (`on_conflict=wa_id`,
`resolution=merge-duplicates`): the payload carries every column, so a
conflict replaces the whole row. -/
def upsertLink (row : LinkRow) (l : List LinkRow) : List LinkRow :=
  if l.any (fun r => r.wa_id = row.wa_id) then
    l.map (fun r => if r.wa_id = row.wa_id then row else r)
  else l ++ [row]

/-- `sb_upsert("wa_request_links", {...}, conflict="wa_id")`. -/
def dbUpsertLink (env : Env) (row : LinkRow) (s : St) : Res Unit :=
  if env.opFails s.ctr then Res.err 502 (strOf "db error") (bump s)
  else Res.ok () { db := { s.db with wa_request_links := upsertLink row s.db.wa_request_links }, ctr := s.ctr + 1 }

/-- `sb_insert("wa_messages", {...})`. -/
def dbInsertMsg (env : Env) (row : MsgRow) (s : St) : Res Unit :=
  if env.opFails s.ctr then Res.err 502 (strOf "db error") (bump s)
  else Res.ok () { db := { s.db with wa_messages := s.db.wa_messages ++ [row] }, ctr := s.ctr + 1 }

/-- Merge-upsert on `wa_conversations` keyed on `conversation_id`, updating
only the provided columns. -/
def upsertConv (cid : List Char) (merge : ConvRow → ConvRow) (init : ConvRow)
    (l : List ConvRow) : List ConvRow :=
  if l.any (fun r => r.conversation_id = cid) then
    l.map (fun r => if r.conversation_id = cid then merge r else r)
  else l ++ [init]

/-- The upsert issued by `append_rolling_summary` (main.py lines 410-417):
columns `conversation_id`, `rolling_summary`, `updated_at`. -/
def dbUpsertConvSummary (env : Env) (cid : List Char) (rs : List Char) (s : St) : Res Unit :=
  if env.opFails s.ctr then Res.err 502 (strOf "db error") (bump s)
  else
    let init : ConvRow :=
      { conversation_id := cid, request_id := none, wa_id := none, started_at := none,
        last_message_at := none, message_count := none, last_direction := none,
        rolling_summary := some rs, updated_at := some env.now }
    let merge : ConvRow → ConvRow :=
      fun r => { r with rolling_summary := some rs, updated_at := some env.now }
    Res.ok ()
      { db := { s.db with wa_conversations := upsertConv cid merge init s.db.wa_conversations },
        ctr := s.ctr + 1 }

/-- The upsert issued by `upsert_conversation_on_inbound` (main.py lines
241-247): columns `conversation_id`, `request_id`, `wa_id`,
`last_message_at`, `last_direction`. -/
def dbUpsertConvInbound (env : Env) (rid : List Char) (waId : Option (List Char)) (s : St) : Res Unit :=
  if env.opFails s.ctr then Res.err 502 (strOf "db error") (bump s)
  else
    let init : ConvRow :=
      { conversation_id := rid, request_id := some rid, wa_id := waId, started_at := none,
        last_message_at := some env.now, message_count := none,
        last_direction := some (strOf "inbound"), rolling_summary := none, updated_at := none }
    let merge : ConvRow → ConvRow :=
      fun r =>
        { r with
          request_id := some rid
          wa_id := waId
          last_message_at := some env.now
          last_direction := some (strOf "inbound") }
    Res.ok ()
      { db := { s.db with wa_conversations := upsertConv rid merge init s.db.wa_conversations },
        ctr := s.ctr + 1 }

/-- `wa_send_text` (main.py lines 342-349): one Graph-API POST; returns the
platform-assigned message id (possibly `""`). -/
def waSendText (env : Env) (s : St) : Res (List Char) :=
  if env.opFails s.ctr then Res.err 502 (strOf "send error") (bump s)
  else Res.ok (env.msgId s.ctr) (bump s)

/-- `supabase.from_(...).insert(booking_data).execute()`. -/
def dbInsertBooking (env : Env) (row : BookingRow) (s : St) : Res Unit :=
  if env.opFails s.ctr then Res.err 502 (strOf "db error") (bump s)
  else Res.ok () { db := { s.db with bookings := s.db.bookings ++ [row] }, ctr := s.ctr + 1 }

/-- The OpenAI chat-completion call: external, may raise; returns the
generated body text. -/
def llmGenerate (env : Env) (s : St) : Res (List Char) :=
  if env.opFails s.ctr then Res.err 502 (strOf "llm error") (bump s)
  else Res.ok env.llmBody (bump s)

/-- SMTP send of the customer email. -/
def sendCustomerEmail (env : Env) (row : EmailRow) (s : St) : Res Unit :=
  if env.opFails s.ctr then Res.err 502 (strOf "smtp error") (bump s)
  else Res.ok () { db := { s.db with custEmails := s.db.custEmails ++ [row] }, ctr := s.ctr + 1 }

/-- SMTP send of the team notification email. -/
def sendTeamEmail (env : Env) (row : EmailRow) (s : St) : Res Unit :=
  if env.opFails s.ctr then Res.err 502 (strOf "smtp error") (bump s)
  else Res.ok () { db := { s.db with teamEmails := s.db.teamEmails ++ [row] }, ctr := s.ctr + 1 }

/-! ### Conversation helpers (main.py lines 236-247, 396-417) -/

/-- Python `s[-n:]`. -/
def lastN (n : Nat) (l : List Char) : List Char := l.drop (l.length - n)

/-- Python `s.strip()`. -/
def pyStrip (l : List Char) : List Char :=
  ((l.dropWhile (fun c => c.isWhitespace)).reverse.dropWhile (fun c => c.isWhitespace)).reverse

/-- Python `s.split(" ")[0]`. -/
def firstSpaceToken (l : List Char) : List Char := l.takeWhile (fun c => c ≠ ' ')

/-- Embedding of `append_rolling_summary` (main.py lines 396-417): read the
current summary, append the delta with a separating space and strip, keep
the trailing 1997 characters behind a `"..."` marker when over 2000, then
merge-upsert the conversation row. -/
def append_rolling_summary (env : Env) (rid : List Char) (delta : List Char) (s : St) : Res Unit :=
  match dbSelectConv env rid s with
  | .err c d s1 => .err c d s1
  | .ok conv s1 =>
    let cur : List Char := match conv with | some r => r.rolling_summary.getD [] | none => []
    let new_rs := if cur ≠ [] then pyStrip (cur ++ ' ' :: delta) else delta
    let new_rs2 := if 2000 < new_rs.length then strOf "..." ++ lastN 1997 new_rs else new_rs
    dbUpsertConvSummary env rid new_rs2 s1

/-- Embedding of `upsert_conversation_on_inbound` (main.py lines 236-247):
no-op when `rid` is falsy, otherwise a merge-upsert. -/
def upsert_conversation_on_inbound (env : Env) (rid : Option (List Char))
    (waId : Option (List Char)) (s : St) : Res Unit :=
  if truthy rid then dbUpsertConvInbound env (rid.getD []) waId s else Res.ok () s

/-! ### The webhook event handler (main.py lines 621-722) -/

/-- The bind confirmation text sent on a resolved button reply
(main.py line 660; the apostrophes are U+2019). -/
def confirmLinkText : List Char :=
  strOf "Thanks! I" ++ [Char.ofNat 8217] ++ strOf "ve linked this WhatsApp chat to your request. I"
    ++ [Char.ofNat 8217] ++ strOf "ll follow up here."

/-- The follow-up text (main.py line 680). -/
def followupText (first : List Char) : List Char :=
  strOf "Thank you" ++ (if first ≠ [] then strOf ", " ++ first else [])
    ++ strOf "! Your test drive is confirmed. Please let me know if you have any questions."

/-- The `try:`-guarded follow-up block after a successful bind (main.py
lines 677-689): booking lookup, follow-up send, its log row, and the
rolling-summary append.  Any exception inside is caught and logged
(`except Exception as e: logging.warning(...)`), so this returns only the
state reached; the `_notify_n8n` call after it is likewise swallowed by a
bare `except Exception: pass` (and `_notify_n8n` is not defined anywhere in
the module, so it always raises `NameError`), hence has no effect. -/
def followupBlock (env : Env) (rid waId : List Char) (s : St) : St :=
  match dbSelectBookingByRid env rid s with
  | .err _ _ s1 => s1
  | .ok b s1 =>
    let fn : List Char := match b with | some r => r.full_name | none => []
    let first := firstSpaceToken fn
    match waSendText env s1 with
    | .err _ _ s2 => s2
    | .ok fu_id s2 =>
      match (if fu_id ≠ [] then
               dbInsertMsg env
                 { message_id := some fu_id, request_id := some rid, wa_id := some waId,
                   direction := strOf "outbound", body_text := some (followupText first),
                   payload := none } s2
             else Res.ok () s2) with
      | .err _ _ s3 => s3
      | .ok _ s3 =>
        match append_rolling_summary env rid (strOf "WA: chat bound and follow-up sent.") s3 with
        | .err _ _ s4 => s4
        | .ok _ s4 => s4

/-- Routing of one inbound message object (the body of the
`for m in v.get("messages", []) or []` loop, main.py lines 635-721). -/
def handleMessage (env : Env) (m : WaMsg) (s : St) : Res Unit :=
  let wa_id : Option (List Char) :=
    match m.from_ with
    | none => none
    | some f => if f ≠ [] ∧ f.head? ≠ some '+' then some ('+' :: f) else some f
  let mid := m.id
  if m.mtype = some (strOf "interactive") ∨ m.mtype = some (strOf "button") then
    let ridRes : Res (Option (List Char)) :=
      if truthy m.contextId then
        match dbSelectOutbound env (m.contextId.getD []) s with
        | .ok row s1 => .ok (row.map (fun r => r.request_id)) s1
        | .err c d s1 => .err c d s1
      else .ok none s
    match ridRes with
    | .err c d s1 => .err c d s1
    | .ok rid s1 =>
      if truthy rid ∧ truthy wa_id then
        match dbUpsertLink env
            { wa_id := wa_id.getD [], request_id := rid.getD [], active := true,
              bound_at := env.now, expires_at := env.now + 48 * 3600,
              bound_via := strOf "button" } s1 with
        | .err c d s2 => .err c d s2
        | .ok _ s2 =>
          match waSendText env s2 with
          | .err c d s3 => .err c d s3
          | .ok out_id s3 =>
            match dbInsertMsg env
                { message_id := mid, request_id := rid, wa_id := wa_id,
                  direction := strOf "inbound",
                  body_text := some (orDefault m.interactiveTitle (strOf "Reply")),
                  payload := none } s3 with
            | .err c d s4 => .err c d s4
            | .ok _ s4 =>
              match (if out_id ≠ [] then
                       dbInsertMsg env
                         { message_id := some out_id, request_id := rid, wa_id := wa_id,
                           direction := strOf "outbound", body_text := some confirmLinkText,
                           payload := none } s4
                     else Res.ok () s4) with
              | .err c d s5 => .err c d s5
              | .ok _ s5 => Res.ok () (followupBlock env (rid.getD []) (wa_id.getD []) s5)
      else
        match dbInsertMsg env
            { message_id := mid, request_id := none, wa_id := wa_id,
              direction := strOf "inbound", body_text := some (strOf "Reply (unmapped)"),
              payload := some m } s1 with
        | .err c d s2 => .err c d s2
        | .ok _ s2 => Res.ok () s2
  else if m.mtype = some (strOf "text") then
    let txt := m.textBody.getD []
    match dbSelectLink env wa_id s with
    | .err c d s1 => .err c d s1
    | .ok bind s1 =>
      let rid : Option (List Char) :=
        match bind with
        | some b => if b.active then some b.request_id else none
        | none => none
      match dbInsertMsg env
          { message_id := mid, request_id := rid, wa_id := wa_id,
            direction := strOf "inbound", body_text := some txt, payload := some m } s1 with
      | .err c d s2 => .err c d s2
      | .ok _ s2 =>
        match upsert_conversation_on_inbound env rid wa_id s2 with
        | .err c d s3 => .err c d s3
        | .ok _ s3 => Res.ok () s3
  else Res.ok () s

/-- The message loop. -/
def handleMessages (env : Env) : List WaMsg → St → Res Unit
  | [], s => Res.ok () s
  | m :: ms, s =>
    match handleMessage env m s with
    | .ok _ s1 => handleMessages env ms s1
    | .err c d s1 => .err c d s1

/-- The change loop. -/
def handleChanges (env : Env) : List WaChange → St → Res Unit
  | [], s => Res.ok () s
  | ch :: chs, s =>
    match handleMessages env ch.value.messages s with
    | .ok _ s1 => handleChanges env chs s1
    | .err c d s1 => .err c d s1

/-- The entry loop. -/
def handleEntries (env : Env) : List WaEntry → St → Res Unit
  | [], s => Res.ok () s
  | e :: es, s =>
    match handleChanges env e.changes s with
    | .ok _ s1 => handleEntries env es s1
    | .err c d s1 => .err c d s1

/-- Processing of an authenticated webhook delivery: the nested event loops
followed by `return {"ok": True}` (represented by `Res.ok ()`). -/
def waProcess (env : Env) (payload : WaPayload) (s : St) : Res Unit :=
  match handleEntries env payload.entry s with
  | .ok _ s1 => Res.ok () s1
  | .err c d s1 => .err c d s1

/-- Embedding of the `POST /wa/webhook` handler `wa_events` (main.py lines
621-722).  `raw` is the raw request body, `sig` the `X-Hub-Signature-256`
header (`""` when absent); when `WA_APP_SECRET` is truthy the handler
rejects a non-matching signature with HTTP 401 before reading the payload,
otherwise it processes the parsed JSON body. -/
def wa_events (env : Env) (raw : List Nat) (sig : List Char) (payload : WaPayload)
    (s : St) : Res Unit :=
  if env.wa_app_secret ≠ [] then
    if sig = strOf "sha256=" ++ hexChars (env.hmacSha256 (utf8Encode env.wa_app_secret) raw) then
      waProcess env payload s
    else Res.err 401 (strOf "bad signature") s
  else waProcess env payload s

/-! ### Booking update endpoint (main.py lines 448-497) -/

/-- The `UpdateBookingRequest` pydantic model: `request_id` required, the
rest optional. -/
structure UpdateBookingRequest where
  request_id : List Char
  action_status : Option (List Char)
  sales_notes : Option (List Char)
  numeric_lead_score : Option Int
  lead_score : Option (List Char)
  wait_until : Option (List Char)
deriving DecidableEq

/-- The `update_data` dict accumulated by `update_booking`: which columns
the Supabase `update` will set. -/
structure UpdateData where
  action_status : Option (List Char)
  sales_notes : Option (List Char)
  numeric_lead_score : Option Int
  lead_score : Option (List Char)
  wait_until : Option (List Char)
deriving DecidableEq

/-- The empty `update_data = {}`. -/
def emptyUpdate : UpdateData :=
  { action_status := none, sales_notes := none, numeric_lead_score := none,
    lead_score := none, wait_until := none }

/-- Apply the provided columns of an update to a booking row. -/
def applyUpdate (u : UpdateData) (r : BookingRow) : BookingRow :=
  { r with
    action_status := u.action_status.getD r.action_status
    sales_notes := u.sales_notes.getD r.sales_notes
    numeric_lead_score := u.numeric_lead_score.getD r.numeric_lead_score
    lead_score := u.lead_score.getD r.lead_score
    wait_until := match u.wait_until with | some v => some v | none => r.wait_until }

/-- `supabase.from_(...).update(update_data).eq("request_id", rid).execute()`:
updates every matching row and returns the updated rows (`resp.data`). -/
def dbUpdateBooking (env : Env) (rid : List Char) (u : UpdateData) (s : St) :
    Res (List BookingRow) :=
  if env.opFails s.ctr then Res.err 502 (strOf "db error") (bump s)
  else
    Res.ok ((s.db.bookings.filter (fun r => r.request_id = rid)).map (applyUpdate u))
      { db := { s.db with bookings :=
          s.db.bookings.map (fun r => if r.request_id = rid then applyUpdate u r else r) },
        ctr := s.ctr + 1 }

/-- Embedding of the `POST /update-booking` handler (main.py lines
458-497).  The statement `if request_body.lead_score is None:` (line 475) is
dedented out of the `numeric_lead_score` branch, so its
`_label_from_numeric(n)` argument refers to a name `n` that was only bound
when `numeric_lead_score` was present; when both score fields are absent
this raises `NameError`, which the catch-all `except` turns into an HTTP
500.  `Res.ok` carries the `{"status": "success", "data": resp.data}`
response. -/
def update_booking (env : Env) (b : UpdateBookingRequest) (s : St) : Res (List BookingRow) :=
  let u0 := emptyUpdate
  let u1 := if b.action_status ≠ none then { u0 with action_status := b.action_status } else u0
  let u2 := if b.sales_notes ≠ none then { u1 with sales_notes := b.sales_notes } else u1
  let u3 :=
    if b.numeric_lead_score ≠ none then { u2 with numeric_lead_score := b.numeric_lead_score }
    else u2
  match (if b.lead_score = none then
           match b.numeric_lead_score with
           | some n => Except.ok { u3 with lead_score := some (label_from_numeric n) }
           | none => Except.error ()
         else Except.ok u3 : Except Unit UpdateData) with
  | Except.error _ =>
    Res.err 500 (strOf "Internal server error: name n is not defined") s
  | Except.ok u4 =>
    let u5 := if b.lead_score ≠ none then { u4 with lead_score := b.lead_score } else u4
    let u6 := if b.wait_until ≠ none then { u5 with wait_until := b.wait_until } else u5
    if u6 = emptyUpdate then
      Res.err 500 (strOf "Internal server error: 400: No updatable fields provided.") s
    else
      match dbUpdateBooking env b.request_id u6 s with
      | .err _ _ s1 => Res.err 500 (strOf "Internal server error") s1
      | .ok rows s1 =>
        if rows ≠ [] then Res.ok rows s1
        else Res.err 500 (strOf "Internal server error: 500: Failed to update booking.") s1

/-! ### Booking intake endpoint (main.py lines 848-1158) -/

/-- The JSON body of a `POST /webhook/testdrive` submission (all keys read
with `.get`, hence optional). -/
structure TdPayload where
  fullName : Option (List Char)
  email : Option (List Char)
  vehicle : Option (List Char)
  date : Option (List Char)
  location : Option (List Char)
  currentVehicle : Option (List Char)
  timeFrame : Option (List Char)
  phone : Option (List Char)
deriving DecidableEq

/-- The rule-based numeric lead score (main.py lines 1025-1033). -/
def initialNumericScore (timeFrame : Option (List Char)) : Int :=
  if timeFrame = some (strOf "0-3-months") then 10
  else if timeFrame = some (strOf "3-6-months") then 7
  else if timeFrame = some (strOf "6-12-months") then 5
  else if timeFrame = some (strOf "exploring-now") then 2
  else 0

/-- The customer-email subject line (main.py line 1042). -/
def tdSubject (vehicle : List Char) : List Char :=
  strOf "AOE Test Drive Confirmed! Get Ready for Your " ++ vehicle ++ strOf " Experience"

/-- The booking row inserted by the intake endpoint (main.py lines
1125-1143). -/
def mkBookingRow (env : Env) (p : TdPayload) (request_id : List Char)
    (generated_body : List Char) (score : Int) (phone_e164 : Option (List Char)) : BookingRow :=
  { request_id := request_id
    full_name := p.fullName.getD []
    email := p.email.getD []
    vehicle := p.vehicle.getD []
    booking_date := p.date.getD []
    location := p.location.getD []
    current_vehicle := p.currentVehicle.getD []
    time_frame := p.timeFrame.getD []
    generated_subject := tdSubject (p.vehicle.getD [])
    generated_body := generated_body
    lead_score := label_from_numeric score
    numeric_lead_score := score
    booking_timestamp := env.now
    action_status := strOf "New Lead"
    sales_notes := []
    phone := p.phone
    phone_e164 := phone_e164
    wait_until := none }

/-- Body of the `try:` block in `testdrive_webhook`: validation, AI email
generation (the vehicle-catalog lookup, tracking-link construction and
prompt assembly only shape the LLM input and email contents, which the
external collaborators consume), lead scoring, customer email, optional
team email, the `try:`-guarded booking insert (its failure is logged, not
raised), and the fire-and-forget WhatsApp kickoff scheduled only for a
normalizable phone. -/
def testdrive_core (env : Env) (p : TdPayload) (s : St) : Res Unit :=
  let phone_e164 := to_e164 p.phone
  if ¬(truthy p.fullName ∧ truthy p.email ∧ truthy p.vehicle ∧ truthy p.date ∧
       truthy p.location ∧ truthy p.currentVehicle ∧ truthy p.timeFrame) then
    Res.err 400 (strOf "Missing required test drive booking fields.") s
  else
    let request_id := env.uuid4
    match llmGenerate env s with
    | .err c d s1 => .err c d s1
    | .ok generated_body s1 =>
      let score := initialNumericScore p.timeFrame
      if ¬ env.emailCfgOk then
        Res.err 500 (strOf "email configuration missing") s1
      else
        match sendCustomerEmail env
            { to_addr := p.email.getD [], subject := tdSubject (p.vehicle.getD []) } s1 with
        | .err c d s2 => .err c d s2
        | .ok _ s2 =>
          match (if env.teamCfg then
                   sendTeamEmail env
                     { to_addr := strOf "TEAM_EMAIL",
                       subject := strOf "New Test Drive Booking for " ++ p.vehicle.getD [] } s2
                 else Res.ok () s2) with
          | .err c d s3 => .err c d s3
          | .ok _ s3 =>
            let s4 :=
              match dbInsertBooking env
                  (mkBookingRow env p request_id generated_body score phone_e164) s3 with
              | .ok _ s4 => s4
              | .err _ _ s4 => s4
            let s5 :=
              if truthy phone_e164 then
                { s4 with db := { s4.db with kickoffs := s4.db.kickoffs ++ [request_id] } }
              else s4
            Res.ok () s5

/-- Embedding of the `POST /webhook/testdrive` handler (main.py lines
848-1158): the whole body sits in one `try:` whose `except Exception`
catch-all re-raises every failure — validation errors included — as
`HTTPException(500, "Internal server error: …")`.  `Res.ok` carries the
`{"status": "success", …}` response. -/
def testdrive_webhook (env : Env) (p : TdPayload) (s : St) : Res Unit :=
  match testdrive_core env p s with
  | .ok a s1 => Res.ok a s1
  | .err _ _ s1 => Res.err 500 (strOf "Internal server error") s1

/-! ## Theorems -/

/-! ### Base64 round-trip -/

theorem b64tbl_mem {n : Nat} (h : n < 64) : b64tbl n ∈ b64alphabet := by
  have all : ∀ m : Fin 64, b64tbl m.val ∈ b64alphabet := by decide
  exact all ⟨n, h⟩

theorem b64idx_tbl {n : Nat} (h : n < 64) : b64idx (b64tbl n) = some n := by
  have all : ∀ m : Fin 64, b64idx (b64tbl m.val) = some m.val := by decide
  exact all ⟨n, h⟩

theorem b64tbl_ne_pad {n : Nat} (h : n < 64) : b64tbl n ≠ '=' := by
  have all : ∀ m : Fin 64, b64tbl m.val ≠ '=' := by decide
  exact all ⟨n, h⟩

theorem mem_b64encode {bs : List Nat} (hb : ∀ b ∈ bs, b < 256) :
    ∀ c ∈ b64encode bs, c ∈ b64alphabet ∨ c = '=' := by
  induction bs using b64encode.induct with
  | case1 => intro c hc; simp [b64encode] at hc
  | case2 a =>
    intro c hc
    have ha : a < 256 := hb a (by simp)
    simp only [b64encode, List.mem_cons, List.not_mem_nil, or_false] at hc
    rcases hc with h | h | h | h
    · exact Or.inl (h ▸ b64tbl_mem (by omega))
    · exact Or.inl (h ▸ b64tbl_mem (by omega))
    · exact Or.inr h
    · exact Or.inr h
  | case3 a b =>
    intro c hc
    have ha : a < 256 := hb a (by simp)
    have hbb : b < 256 := hb b (by simp)
    simp only [b64encode, List.mem_cons, List.not_mem_nil, or_false] at hc
    rcases hc with h | h | h | h
    · exact Or.inl (h ▸ b64tbl_mem (by omega))
    · exact Or.inl (h ▸ b64tbl_mem (by omega))
    · exact Or.inl (h ▸ b64tbl_mem (by omega))
    · exact Or.inr h
  | case4 a b c rest ih =>
    intro x hx
    have ha : a < 256 := hb a (by simp)
    have hbb : b < 256 := hb b (by simp)
    have hcc : c < 256 := hb c (by simp)
    have hrest : ∀ y ∈ rest, y < 256 := fun y hy => hb y (by simp [hy])
    simp only [b64encode, List.mem_cons] at hx
    rcases hx with h | h | h | h | h
    · exact Or.inl (h ▸ b64tbl_mem (by omega))
    · exact Or.inl (h ▸ b64tbl_mem (by omega))
    · exact Or.inl (h ▸ b64tbl_mem (by omega))
    · exact Or.inl (h ▸ b64tbl_mem (by omega))
    · exact ih hrest x h

theorem b64decodeChunks_encode {bs : List Nat} (hb : ∀ b ∈ bs, b < 256) :
    b64decodeChunks (b64encode bs) = some bs := by
  induction bs using b64encode.induct with
  | case1 => rfl
  | case2 a =>
    have ha : a < 256 := hb a (by simp)
    have h1 := b64idx_tbl (n := a / 4) (by omega)
    have h2 := b64idx_tbl (n := a % 4 * 16) (by omega)
    simp only [b64encode, b64decodeChunks, h1, h2]
    simp only [if_pos rfl, and_self, if_pos, Option.some.injEq, List.cons.injEq, and_true]
    omega
  | case3 a b =>
    have ha : a < 256 := hb a (by simp)
    have hbb : b < 256 := hb b (by simp)
    have h1 := b64idx_tbl (n := a / 4) (by omega)
    have h2 := b64idx_tbl (n := a % 4 * 16 + b / 16) (by omega)
    have h3 := b64idx_tbl (n := b % 16 * 4) (by omega)
    have h3ne := b64tbl_ne_pad (n := b % 16 * 4) (by omega)
    simp [b64encode, b64decodeChunks, h1, h2, h3, h3ne]
    omega
  | case4 a b c rest ih =>
    have ha : a < 256 := hb a (by simp)
    have hbb : b < 256 := hb b (by simp)
    have hcc : c < 256 := hb c (by simp)
    have hrest : ∀ y ∈ rest, y < 256 := fun y hy => hb y (by simp [hy])
    have h1 := b64idx_tbl (n := a / 4) (by omega)
    have h2 := b64idx_tbl (n := a % 4 * 16 + b / 16) (by omega)
    have h3 := b64idx_tbl (n := b % 16 * 4 + c / 64) (by omega)
    have h4 := b64idx_tbl (n := c % 64) (by omega)
    have h3ne := b64tbl_ne_pad (n := b % 16 * 4 + c / 64) (by omega)
    have h4ne := b64tbl_ne_pad (n := c % 64) (by omega)
    simp [b64encode, b64decodeChunks, h1, h2, h3, h4, h3ne, h4ne, ih hrest]
    omega

theorem dropWhile_append_of_ne_nil {p : Char → Bool} {A B : List Char}
    (h : A.dropWhile p ≠ []) : (A ++ B).dropWhile p = A.dropWhile p ++ B := by
  induction A with
  | nil => simp at h
  | cons a A ih =>
    by_cases hp : p a
    · simp only [List.cons_append, List.dropWhile_cons, hp, if_true] at h ⊢
      exact ih h
    · simp [List.dropWhile_cons, hp]

theorem rstripChar_append {x : Char} {l1 l2 : List Char} (h : rstripChar x l2 ≠ []) :
    rstripChar x (l1 ++ l2) = l1 ++ rstripChar x l2 := by
  unfold rstripChar at h ⊢
  have h2 : l2.reverse.dropWhile (fun c => c = x) ≠ [] := by
    intro hnil; rw [hnil] at h; simp at h
  rw [List.reverse_append, dropWhile_append_of_ne_nil h2, List.reverse_append,
    List.reverse_reverse]

theorem rstripChar_ne_nil {x c : Char} {l : List Char} (hc : c ∈ l) (hne : c ≠ x) :
    rstripChar x l ≠ [] := by
  unfold rstripChar
  intro h
  rw [List.reverse_eq_nil_iff, List.dropWhile_eq_nil_iff] at h
  have := h c (List.mem_reverse.mpr hc)
  simp at this
  exact hne this

theorem mem_rstripChar {x c : Char} {l : List Char} (h : c ∈ rstripChar x l) : c ∈ l := by
  unfold rstripChar at h
  rw [List.mem_reverse] at h
  exact List.mem_reverse.mp ((List.dropWhile_sublist _).subset h)

theorem b64encode_cons_head (d : Nat) (tl : List Nat) :
    ∃ t, b64encode (d :: tl) = b64tbl (d / 4) :: t := by
  match tl with
  | [] => exact ⟨_, rfl⟩
  | [_] => exact ⟨_, rfl⟩
  | _ :: _ :: _ => exact ⟨_, rfl⟩

theorem b64u_repad {bs : List Nat} (hb : ∀ b ∈ bs, b < 256) :
    b64u bs ++ List.replicate ((4 - (b64u bs).length % 4) % 4) '=' = b64encode bs := by
  unfold b64u
  induction bs using b64encode.induct with
  | case1 => rfl
  | case2 a =>
    have ha : a < 256 := hb a (by simp)
    have h1 := b64tbl_ne_pad (n := a / 4) (by omega)
    have h2 := b64tbl_ne_pad (n := a % 4 * 16) (by omega)
    simp [b64encode, rstripChar, List.dropWhile, h2]
  | case3 a b =>
    have ha : a < 256 := hb a (by simp)
    have hbb : b < 256 := hb b (by simp)
    have h3 := b64tbl_ne_pad (n := b % 16 * 4) (by omega)
    simp [b64encode, rstripChar, List.dropWhile, h3]
  | case4 a b c rest ih =>
    have ha : a < 256 := hb a (by simp)
    have hbb : b < 256 := hb b (by simp)
    have hcc : c < 256 := hb c (by simp)
    have hrest : ∀ y ∈ rest, y < 256 := fun y hy => hb y (by simp [hy])
    match hr : rest with
    | [] =>
      have h4 := b64tbl_ne_pad (n := c % 64) (by omega)
      simp [b64encode, rstripChar, List.dropWhile, h4]
    | d :: tl =>
      have hd : d < 256 := hrest d (by simp)
      obtain ⟨t, ht⟩ := b64encode_cons_head d tl
      have hne : rstripChar '=' (b64encode (d :: tl)) ≠ [] := by
        rw [ht]
        exact rstripChar_ne_nil (List.mem_cons_self _ _) (b64tbl_ne_pad (by omega))
      have hchunk :
          b64encode (a :: b :: c :: d :: tl) =
            [b64tbl (a / 4), b64tbl (a % 4 * 16 + b / 16), b64tbl (b % 16 * 4 + c / 64),
              b64tbl (c % 64)] ++ b64encode (d :: tl) := by
        simp [b64encode]
      rw [hchunk, rstripChar_append hne]
      have ihr := ih (hr ▸ hrest)
      rw [List.append_assoc, List.length_append]
      have hlen : (4 + (rstripChar '=' (b64encode (d :: tl))).length % 4) % 4 =
          (rstripChar '=' (b64encode (d :: tl))).length % 4 := by omega
      simp only [List.length_cons, List.length_nil]
      have : (4 - (4 + (rstripChar '=' (b64encode (d :: tl))).length) % 4) % 4 =
          (4 - (rstripChar '=' (b64encode (d :: tl))).length % 4) % 4 := by omega
      rw [this, ihr]

theorem u64_b64u {bs : List Nat} (hb : ∀ b ∈ bs, b < 256) : u64 (b64u bs) = some bs := by
  unfold u64 b64decode
  rw [b64u_repad hb]
  rw [List.filter_eq_self.mpr]
  · exact b64decodeChunks_encode hb
  · intro c hc
    rcases mem_b64encode hb c hc with h | h <;> simp [h]

theorem not_dot_b64u {bs : List Nat} (hb : ∀ b ∈ bs, b < 256) : '.' ∉ b64u bs := by
  intro h
  rcases mem_b64encode hb '.' (mem_rstripChar h) with hm | hm
  · revert hm; decide
  · revert hm; decide

theorem splitDot_append {l1 l2 : List Char} (h : '.' ∉ l1) :
    splitDot (l1 ++ '.' :: l2) = some (l1, l2) := by
  induction l1 with
  | nil => simp [splitDot]
  | cons c l1 ih =>
    have hc : c ≠ '.' := fun he => h (he ▸ List.mem_cons_self c l1)
    have h1 : '.' ∉ l1 := fun hm => h (List.mem_cons_of_mem _ hm)
    simp [splitDot, hc, ih h1]

/-! ### UTF-8 round-trip -/

theorem char_toNat_lt (c : Char) : c.toNat < 1114112 := by
  rcases c.valid with h | h
  · exact Nat.lt_trans h (by norm_num)
  · exact h.2

theorem char_not_surrogate (c : Char) : ¬(55296 ≤ c.toNat ∧ c.toNat < 57344) := by
  have he : c.toNat = c.val.toNat := rfl
  rcases c.valid with h | h <;> omega

theorem utf8EncodeChar_byte_lt {c : Char} : ∀ b ∈ utf8EncodeChar c, b < 256 := by
  have hv := char_toNat_lt c
  intro b hb
  simp only [utf8EncodeChar] at hb
  split_ifs at hb <;> simp at hb <;> omega

theorem utf8Encode_cons (c : Char) (s : List Char) :
    utf8Encode (c :: s) = utf8EncodeChar c ++ utf8Encode s := rfl

theorem utf8Encode_byte_lt {s : List Char} : ∀ b ∈ utf8Encode s, b < 256 := by
  induction s with
  | nil => intro b hb; simp [utf8Encode] at hb
  | cons c s ih =>
    intro b hb
    rw [utf8Encode_cons, List.mem_append] at hb
    rcases hb with hb | hb
    · exact utf8EncodeChar_byte_lt b hb
    · exact ih b hb

theorem utf8EncodeChar_ne_nil (c : Char) : utf8EncodeChar c ≠ [] := by
  simp only [utf8EncodeChar]
  split_ifs <;> simp

theorem utf8DecodeStep_enc (c : Char) (rest : List Nat) :
    utf8DecodeStep (utf8EncodeChar c ++ rest) = some (c, rest) := by
  have hv := char_toNat_lt c
  have hs := char_not_surrogate c
  by_cases h1 : c.toNat < 128
  · have he : utf8EncodeChar c = [c.toNat] := by simp [utf8EncodeChar, h1]
    rw [he]
    simp [utf8DecodeStep, h1, Char.ofNat_toNat]
  · by_cases h2 : c.toNat < 2048
    · have he : utf8EncodeChar c = [192 + c.toNat / 64, 128 + c.toNat % 64] := by
        simp [utf8EncodeChar, h1, h2]
      have harith : (192 + c.toNat / 64 - 192) * 64 + (128 + c.toNat % 64 - 128) = c.toNat := by
        omega
      rw [he]
      simp only [List.cons_append, List.nil_append, utf8DecodeStep]
      rw [if_neg (by omega), if_neg (by omega), if_pos (by omega),
        if_pos (by constructor <;> omega), if_pos (by omega), harith, Char.ofNat_toNat]
    · by_cases h3 : c.toNat < 65536
      · have he : utf8EncodeChar c =
            [224 + c.toNat / 4096, 128 + c.toNat / 64 % 64, 128 + c.toNat % 64] := by
          simp [utf8EncodeChar, h1, h2, h3]
        have harith : (224 + c.toNat / 4096 - 224) * 4096 +
            (128 + c.toNat / 64 % 64 - 128) * 64 + (128 + c.toNat % 64 - 128) = c.toNat := by
          omega
        rw [he]
        simp only [List.cons_append, List.nil_append, utf8DecodeStep]
        rw [if_neg (by omega), if_neg (by omega), if_neg (by omega), if_pos (by omega),
          if_pos (by exact ⟨⟨by omega, by omega⟩, by omega, by omega⟩),
          if_pos (by omega), harith, Char.ofNat_toNat]
      · have he : utf8EncodeChar c =
            [240 + c.toNat / 262144, 128 + c.toNat / 4096 % 64, 128 + c.toNat / 64 % 64,
              128 + c.toNat % 64] := by
          simp [utf8EncodeChar, h1, h2, h3]
        have harith : (240 + c.toNat / 262144 - 240) * 262144 +
            (128 + c.toNat / 4096 % 64 - 128) * 4096 + (128 + c.toNat / 64 % 64 - 128) * 64 +
            (128 + c.toNat % 64 - 128) = c.toNat := by omega
        rw [he]
        simp only [List.cons_append, List.nil_append, utf8DecodeStep]
        rw [if_neg (by omega), if_neg (by omega), if_neg (by omega), if_neg (by omega),
          if_pos (by omega),
          if_pos (by exact ⟨⟨by omega, by omega⟩, ⟨by omega, by omega⟩, by omega, by omega⟩),
          if_pos (by omega), harith, Char.ofNat_toNat]

theorem utf8DecodeAux_enc : ∀ (s : List Char) (fuel : Nat),
    (utf8Encode s).length ≤ fuel → utf8DecodeAux fuel (utf8Encode s) = some s
  | [], fuel, _ => by cases fuel <;> rfl
  | c :: s, fuel, h => by
    obtain ⟨b, tl, hb⟩ : ∃ b tl, utf8EncodeChar c = b :: tl := by
      cases hE : utf8EncodeChar c with
      | nil => exact absurd hE (utf8EncodeChar_ne_nil c)
      | cons b tl => exact ⟨b, tl, rfl⟩
    have hcons : utf8Encode (c :: s) = b :: (tl ++ utf8Encode s) := by
      rw [utf8Encode_cons, hb, List.cons_append]
    have hlen : (utf8Encode s).length + 1 ≤ fuel := by
      rw [hcons] at h
      simp only [List.length_cons, List.length_append] at h
      omega
    match fuel, hlen with
    | fuel + 1, _ =>
      rw [hcons]
      show (match utf8DecodeStep (b :: (tl ++ utf8Encode s)) with
        | some (c, rest) =>
          match utf8DecodeAux fuel rest with
          | some cs => some (c :: cs)
          | none => none
        | none => none) = some (c :: s)
      rw [show b :: (tl ++ utf8Encode s) = utf8EncodeChar c ++ utf8Encode s by
        rw [hb, List.cons_append]]
      rw [utf8DecodeStep_enc]
      show (match utf8DecodeAux fuel (utf8Encode s) with
        | some cs => some (c :: cs)
        | none => none) = some (c :: s)
      rw [utf8DecodeAux_enc s fuel (by omega)]

theorem utf8Decode_encode (s : List Char) : utf8Decode (utf8Encode s) = some s :=
  utf8DecodeAux_enc s _ le_rfl

/-! ### JSON round-trip on the token payload -/

theorem hexVal_hexAlphabet {n : Nat} (h : n < 16) :
    hexVal (hexAlphabet.getD n '0') = some n := by
  have all : ∀ m : Fin 16, hexVal (hexAlphabet.getD m.val '0') = some m.val := by decide
  exact all ⟨n, h⟩

theorem hexVal_hexAlphabet_getElem {n : Nat} (h : n < 16) :
    hexVal (hexAlphabet[n]?.getD '0') = some n := by
  have all : ∀ m : Fin 16, hexVal (hexAlphabet[m.val]?.getD '0') = some m.val := by decide
  exact all ⟨n, h⟩

theorem parseJStringAux_escChar (c : Char) (tail : List Char) (fuel : Nat) :
    parseJStringAux (fuel + 1) (jsonEscapeChar c ++ tail) =
      (parseJStringAux fuel tail).map (fun pr => (c :: pr.1, pr.2)) := by
  by_cases hq : c = '"'
  · subst hq
    cases hpt : parseJStringAux fuel tail <;>
      simp [jsonEscapeChar, parseJStringAux, decodeShortEsc, hpt]
  · by_cases hbk : c = '\\'
    · subst hbk
      cases hpt : parseJStringAux fuel tail <;>
        simp [jsonEscapeChar, parseJStringAux, decodeShortEsc, hpt]
    · by_cases h8 : c.toNat = 8
      · have hc : c = Char.ofNat 8 := by rw [← Char.ofNat_toNat c, h8]
        subst hc
        cases hpt : parseJStringAux fuel tail <;>
          simp [jsonEscapeChar, parseJStringAux, decodeShortEsc, hpt]
      · by_cases h9 : c.toNat = 9
        · have hc : c = Char.ofNat 9 := by rw [← Char.ofNat_toNat c, h9]
          subst hc
          cases hpt : parseJStringAux fuel tail <;>
            simp [jsonEscapeChar, parseJStringAux, decodeShortEsc, hpt]
        · by_cases h10 : c.toNat = 10
          · have hc : c = Char.ofNat 10 := by rw [← Char.ofNat_toNat c, h10]
            subst hc
            cases hpt : parseJStringAux fuel tail <;>
              simp [jsonEscapeChar, parseJStringAux, decodeShortEsc, hpt]
          · by_cases h12 : c.toNat = 12
            · have hc : c = Char.ofNat 12 := by rw [← Char.ofNat_toNat c, h12]
              subst hc
              cases hpt : parseJStringAux fuel tail <;>
                simp [jsonEscapeChar, parseJStringAux, decodeShortEsc, hpt]
            · by_cases h13 : c.toNat = 13
              · have hc : c = Char.ofNat 13 := by rw [← Char.ofNat_toNat c, h13]
                subst hc
                cases hpt : parseJStringAux fuel tail <;>
                  simp [jsonEscapeChar, parseJStringAux, decodeShortEsc, hpt]
              · by_cases hctl : c.toNat < 32
                · have he : jsonEscapeChar c =
                      ['\\', 'u', '0', '0', hexAlphabet.getD (c.toNat / 16) '0',
                        hexAlphabet.getD (c.toNat % 16) '0'] := by
                    unfold jsonEscapeChar
                    rw [if_neg hq, if_neg hbk, if_neg h8, if_neg h9, if_neg h10, if_neg h12,
                      if_neg h13, if_pos hctl]
                  have e1 := hexVal_hexAlphabet (n := c.toNat / 16) (by omega)
                  have e2 := hexVal_hexAlphabet (n := c.toNat % 16) (by omega)
                  have e1g := hexVal_hexAlphabet_getElem (n := c.toNat / 16) (by omega)
                  have e2g := hexVal_hexAlphabet_getElem (n := c.toNat % 16) (by omega)
                  have harith : c.toNat / 16 * 16 + c.toNat % 16 = c.toNat := by omega
                  rw [he]
                  simp only [List.cons_append, List.nil_append]
                  cases hpt : parseJStringAux fuel tail <;>
                    simp [parseJStringAux, e1, e2, e1g, e2g, hpt, harith, Char.ofNat_toNat,
                      show hexVal '0' = some 0 from by decide]
                · have he : jsonEscapeChar c = [c] := by
                    unfold jsonEscapeChar
                    rw [if_neg hq, if_neg hbk, if_neg h8, if_neg h9, if_neg h10, if_neg h12,
                      if_neg h13, if_neg hctl]
                  rw [he]
                  simp only [List.cons_append, List.nil_append]
                  cases hpt : parseJStringAux fuel tail <;>
                    simp [parseJStringAux, hq, hbk, hctl, hpt]

theorem jsonEscape_cons (c : Char) (s : List Char) :
    jsonEscape (c :: s) = jsonEscapeChar c ++ jsonEscape s := rfl

theorem parseJStringAux_escape :
    ∀ (s : List Char) (rest : List Char) (fuel : Nat), s.length < fuel →
      parseJStringAux fuel (jsonEscape s ++ '"' :: rest) = some (s, rest)
  | [], rest, fuel, h => by
    match fuel, h with
    | fuel + 1, _ => simp [jsonEscape, parseJStringAux]
  | c :: s, rest, fuel, h => by
    match fuel, h with
    | fuel + 1, h =>
      rw [jsonEscape_cons, List.append_assoc, parseJStringAux_escChar,
        parseJStringAux_escape s rest fuel (by simpa using Nat.lt_of_succ_lt_succ h)]
      rfl

theorem jsonEscapeChar_ne_nil (c : Char) : jsonEscapeChar c ≠ [] := by
  unfold jsonEscapeChar
  split_ifs <;> simp

theorem jsonEscape_length (s : List Char) : s.length ≤ (jsonEscape s).length := by
  induction s with
  | nil => simp [jsonEscape]
  | cons c s ih =>
    rw [jsonEscape_cons, List.length_append, List.length_cons]
    have h1 : 1 ≤ (jsonEscapeChar c).length := by
      cases he : jsonEscapeChar c with
      | nil => exact absurd he (jsonEscapeChar_ne_nil c)
      | cons _ _ => simp
    omega

theorem parseJString_escape (s rest : List Char) :
    parseJString (jsonEscape s ++ '"' :: rest) = some (s, rest) := by
  unfold parseJString
  apply parseJStringAux_escape
  have h1 := jsonEscape_length s
  simp only [List.length_append, List.length_cons]
  omega

theorem parseQuoted_quote (s rest : List Char) :
    parseQuoted (jsonQuote s ++ rest) = some (s, rest) := by
  unfold jsonQuote
  simp only [List.cons_append, List.append_assoc, List.singleton_append]
  simp only [parseQuoted]
  exact parseJString_escape s rest

theorem dropLit_append (L rest : List Char) : dropLit L (L ++ rest) = some rest := by
  induction L with
  | nil => rfl
  | cons c L ih => simp [dropLit, ih]


theorem digitChar_isDig {d : Nat} (h : d < 10) : isDig (Nat.digitChar d) = true := by
  have all : ∀ m : Fin 10, isDig (Nat.digitChar m.val) = true := by decide
  exact all ⟨d, h⟩

theorem digitChar_toNat {d : Nat} (h : d < 10) : (Nat.digitChar d).toNat - 48 = d := by
  have all : ∀ m : Fin 10, (Nat.digitChar m.val).toNat - 48 = m.val := by decide
  exact all ⟨d, h⟩

theorem parseNatAux_natToCharsAux : ∀ (fuel n acc : Nat) (rest : List Char), n < fuel →
    parseNatAux acc (natToCharsAux fuel n ++ rest) =
      parseNatAux (acc * 10 ^ (natToCharsAux fuel n).length + n) rest
  | 0, n, _, _, h => absurd h (by omega)
  | fuel + 1, n, acc, rest, h => by
    by_cases h10 : n < 10
    · simp only [natToCharsAux, if_pos h10, List.singleton_append, List.length_cons,
        List.length_nil, pow_one, zero_add]
      simp [parseNatAux, digitChar_isDig h10, digitChar_toNat h10]
    · have hrec : n / 10 < fuel := by omega
      simp only [natToCharsAux, if_neg h10, List.append_assoc, List.singleton_append]
      rw [parseNatAux_natToCharsAux fuel (n / 10) acc (Nat.digitChar (n % 10) :: rest) hrec]
      have hd10 : n % 10 < 10 := by omega
      simp only [parseNatAux, digitChar_isDig hd10, if_pos, digitChar_toNat hd10,
        List.length_append, List.length_cons, List.length_nil]
      congr 1
      have hpow : 10 ^ ((natToCharsAux fuel (n / 10)).length + (0 + 1)) =
          10 ^ (natToCharsAux fuel (n / 10)).length * 10 := by
        rw [Nat.zero_add, pow_succ]
      rw [hpow]
      have hdm : n / 10 * 10 + n % 10 = n := by omega
      calc (acc * 10 ^ (natToCharsAux fuel (n / 10)).length + n / 10) * 10 + n % 10
          = acc * (10 ^ (natToCharsAux fuel (n / 10)).length * 10) +
              (n / 10 * 10 + n % 10) := by ring
        _ = acc * (10 ^ (natToCharsAux fuel (n / 10)).length * 10) + n := by rw [hdm]

theorem natToCharsAux_head_digit : ∀ (fuel n : Nat), n < fuel →
    ∃ c cs, natToCharsAux fuel n = c :: cs ∧ isDig c = true
  | 0, n, h => absurd h (by omega)
  | fuel + 1, n, h => by
    by_cases h10 : n < 10
    · exact ⟨Nat.digitChar n, [], by simp [natToCharsAux, h10], digitChar_isDig h10⟩
    · obtain ⟨c, cs, hcs, hd⟩ := natToCharsAux_head_digit fuel (n / 10) (by omega)
      exact ⟨c, cs ++ [Nat.digitChar (n % 10)], by simp [natToCharsAux, h10, hcs], hd⟩

theorem parseNat_natToChars {n : Nat} {r : Char} {rest : List Char} (hr : isDig r = false) :
    parseNat (natToChars n ++ r :: rest) = some (n, r :: rest) := by
  obtain ⟨c, cs, hcs, hd⟩ := natToCharsAux_head_digit (n + 1) n (by omega)
  have haux := parseNatAux_natToCharsAux (n + 1) n 0 (r :: rest) (by omega)
  unfold natToChars
  rw [hcs] at haux ⊢
  rw [List.cons_append] at haux ⊢
  have hopen : parseNatAux 0 (c :: (cs ++ r :: rest)) =
      parseNatAux (c.toNat - 48) (cs ++ r :: rest) := by
    simp [parseNatAux, hd]
  simp only [parseNat, hd, if_pos]
  rw [← hopen, haux]
  simp [parseNatAux, hr]

theorem parseTokenPayload_dumps (p : TokenPayload) :
    parseTokenPayload (dumpsTokenPayload p) = some p := by
  have hd : dumpsTokenPayload p =
      (lbrace :: strOf "\"rid\":") ++ (jsonQuote p.rid ++ (strOf ",\"wa_id\":" ++
        (jsonQuote p.wa_id ++ (strOf ",\"url\":" ++ (jsonQuote p.url ++
        (strOf ",\"kind\":" ++ (jsonQuote p.kind ++ (strOf ",\"exp\":" ++
        (natToChars p.exp ++ [rbrace]))))))))) := by
    simp [dumpsTokenPayload, List.append_assoc]
  unfold parseTokenPayload
  rw [hd]
  simp only [Option.bind_eq_bind, dropLit_append, parseQuoted_quote, Option.some_bind,
    parseNat_natToChars (show isDig rbrace = false by decide)]
  simp

/-! ### TokenCodec round-trip and expiry -/

theorem loads_dumps (p : TokenPayload) :
    loadsTokenPayload (utf8Encode (dumpsTokenPayload p)) = some p := by
  unfold loadsTokenPayload
  rw [utf8Decode_encode]
  exact parseTokenPayload_dumps p

theorem verify_make_token (env : TokenEnv) (p : TokenPayload) (now : Nat)
    (hh : ∀ k m b, b ∈ env.hmacSha256 k m → b < 256) :
    verify_token env now (make_token env p) =
      if now > p.exp then Except.error VerifyErr.expired else Except.ok p := by
  unfold verify_token make_token
  rw [splitDot_append (not_dot_b64u utf8Encode_byte_lt)]
  simp only [u64_b64u utf8Encode_byte_lt, u64_b64u (fun b hb => hh _ _ b hb), loads_dumps]
  simp

/-- Claim C4: for every payload P and valid signing key,
`verify_token (make_token P)` returns P unchanged, provided verification
happens before the embedded expiry (the byte-string hypothesis states that
the HMAC primitive returns bytes, as `hmac.digest()` does). -/
theorem claim_C4_token_roundtrip (env : TokenEnv) (p : TokenPayload) (now : Nat)
    (hh : ∀ k m b, b ∈ env.hmacSha256 k m → b < 256) (ht : now ≤ p.exp) :
    verify_token env now (make_token env p) = Except.ok p := by
  rw [verify_make_token env p now hh, if_neg (by omega)]

/-- Claim C4 witness: the round-trip theorem applied at a concrete payload,
key and verification time. -/
theorem claim_C4_witness :
    verify_token ⟨strOf "k", [], fun _ _ => []⟩ 5
      (make_token ⟨strOf "k", [], fun _ _ => []⟩
        ⟨strOf "r1", strOf "+15551234567", strOf "https://x", strOf "wa_resource", 5⟩) =
      Except.ok ⟨strOf "r1", strOf "+15551234567", strOf "https://x", strOf "wa_resource", 5⟩ :=
  claim_C4_token_roundtrip _ _ _ (fun _ _ b hb => absurd hb (List.not_mem_nil b)) (le_refl 5)

/-- Claim C5 counterexample: a token issued by `build_tracked` with
`ttl_days = 0` carries `exp = now`, and verifying it at that same second
returns the payload successfully — it does not fail with Expired, contrary
to the claim that a token issued with ttl = 0 fails verification. -/
theorem claim_C5_counterexample :
    build_tracked ⟨strOf "k", [], fun _ _ => []⟩ 1000 (some (strOf "https://x"))
        (strOf "r1") (strOf "+15551234567") (strOf "wa_resource") 0 =
      some (strOf "/t/" ++ make_token ⟨strOf "k", [], fun _ _ => []⟩
        ⟨strOf "r1", strOf "+15551234567", strOf "https://x", strOf "wa_resource", 1000⟩) ∧
    verify_token ⟨strOf "k", [], fun _ _ => []⟩ 1000
      (make_token ⟨strOf "k", [], fun _ _ => []⟩
        ⟨strOf "r1", strOf "+15551234567", strOf "https://x", strOf "wa_resource", 1000⟩) =
      Except.ok ⟨strOf "r1", strOf "+15551234567", strOf "https://x", strOf "wa_resource", 1000⟩ ∧
    (Except.ok ⟨strOf "r1", strOf "+15551234567", strOf "https://x", strOf "wa_resource", 1000⟩ ≠
      (Except.error VerifyErr.expired : Except VerifyErr TokenPayload)) := by
  refine ⟨?_, ?_, by simp⟩
  · rfl
  · rw [verify_make_token _ _ _ (fun _ _ b hb => absurd hb (List.not_mem_nil b))]
    simp

/-- Claim C5 (amended): after the signature check passes, verification of an
issued token fails with Expired exactly when the verification time strictly
exceeds the embedded expiry; hence a token issued with ttl = 0 fails with
Expired when verified at any strictly later second, but still verifies
successfully within its issuance second. -/
theorem claim_C5_expiry (env : TokenEnv) (p : TokenPayload) (now : Nat)
    (hh : ∀ k m b, b ∈ env.hmacSha256 k m → b < 256) :
    verify_token env now (make_token env p) = Except.error VerifyErr.expired ↔ now > p.exp := by
  rw [verify_make_token env p now hh]
  by_cases hgt : now > p.exp <;> simp [hgt]

/-- Claim C5 witness: a ttl = 0 style token (expiry equal to issue time 5)
verified at time 6 fails with Expired. -/
theorem claim_C5_witness :
    verify_token ⟨strOf "k", [], fun _ _ => []⟩ 6
      (make_token ⟨strOf "k", [], fun _ _ => []⟩
        ⟨strOf "r", strOf "+1", strOf "u", strOf "wa_resource", 5⟩) =
      Except.error VerifyErr.expired :=
  (claim_C5_expiry _ _ _ (fun _ _ b hb => absurd hb (List.not_mem_nil b))).mpr (by decide)

/-! ### Webhook authentication (claims C2 and C10) -/

/-- Claim C2: when the configured shared secret is non-empty and the
`X-Hub-Signature-256` header does not equal `sha256=` followed by the hex
HMAC-SHA256 of the raw body under that secret, the delivery is rejected
with HTTP 401 and the returned state is exactly the input state: no binding
upsert and no message-log entry happen. -/
theorem claim_C2_signature_rejection (env : Env) (raw : List Nat) (sig : List Char)
    (payload : WaPayload) (s : St)
    (hsec : env.wa_app_secret ≠ [])
    (hsig : sig ≠ strOf "sha256=" ++
      hexChars (env.hmacSha256 (utf8Encode env.wa_app_secret) raw)) :
    wa_events env raw sig payload s = Res.err 401 (strOf "bad signature") s := by
  unfold wa_events
  rw [if_pos hsec, if_neg hsig]

/-- Claim C2 witness: a concrete delivery with a wrong signature header is
rejected with 401 and an unchanged state. -/
theorem claim_C2_witness :
    wa_events ⟨strOf "s", fun _ _ => [], 0, fun _ => false, fun _ => [], [], [], false, true⟩
        [1, 2] (strOf "nope") ⟨[]⟩ ⟨⟨[], [], [], [], [], [], [], []⟩, 0⟩ =
      Res.err 401 (strOf "bad signature") ⟨⟨[], [], [], [], [], [], [], []⟩, 0⟩ :=
  claim_C2_signature_rejection _ _ _ _ _ (by decide) (by decide)

/-- Claim C10: when `WA_APP_SECRET` is the empty string, the webhook POST
handler skips signature verification entirely — for every raw body and
every header value the outcome is exactly the processing of the parsed
payload, independent of `raw` and `sig`. -/
theorem claim_C10_empty_secret_skips_auth (env : Env) (raw : List Nat) (sig : List Char)
    (payload : WaPayload) (s : St) (hsec : env.wa_app_secret = []) :
    wa_events env raw sig payload s = waProcess env payload s := by
  unfold wa_events
  rw [hsec]
  simp

/-- Claim C10 witness: with an empty secret, a delivery with a garbage
signature header over an arbitrary body is processed as if authenticated. -/
theorem claim_C10_witness :
    wa_events ⟨[], fun _ _ => [], 0, fun _ => false, fun _ => [], [], [], false, true⟩
        [9, 9, 9] (strOf "garbage") ⟨[]⟩ ⟨⟨[], [], [], [], [], [], [], []⟩, 0⟩ =
      waProcess ⟨[], fun _ _ => [], 0, fun _ => false, fun _ => [], [], [], false, true⟩
        ⟨[]⟩ ⟨⟨[], [], [], [], [], [], [], []⟩, 0⟩ :=
  claim_C10_empty_secret_skips_auth _ _ _ _ _ rfl

/-! ### The handler acknowledges when external calls succeed (claim C9) -/

theorem handleMessage_ok (env : Env) (m : WaMsg) (s : St) (hok : ∀ n, env.opFails n = false) :
    ∃ s', handleMessage env m s = Res.ok () s' := by
  unfold handleMessage followupBlock append_rolling_summary upsert_conversation_on_inbound
  simp only [dbSelectOutbound, dbUpsertLink, waSendText, dbInsertMsg, dbSelectLink,
    dbSelectBookingByRid, dbSelectConv, dbUpsertConvSummary, dbUpsertConvInbound, hok,
    Bool.false_eq_true, if_false]
  repeat' split
  all_goals first
    | exact ⟨_, rfl⟩
    | (rename_i h; split at h <;> simp at h)

theorem handleMessages_ok (env : Env) (hok : ∀ n, env.opFails n = false) :
    ∀ (ms : List WaMsg) (s : St), ∃ s', handleMessages env ms s = Res.ok () s'
  | [], s => ⟨s, rfl⟩
  | m :: ms, s => by
    obtain ⟨s1, h1⟩ := handleMessage_ok env m s hok
    obtain ⟨s2, h2⟩ := handleMessages_ok env hok ms s1
    exact ⟨s2, by simp [handleMessages, h1, h2]⟩

theorem handleChanges_ok (env : Env) (hok : ∀ n, env.opFails n = false) :
    ∀ (chs : List WaChange) (s : St), ∃ s', handleChanges env chs s = Res.ok () s'
  | [], s => ⟨s, rfl⟩
  | ch :: chs, s => by
    obtain ⟨s1, h1⟩ := handleMessages_ok env hok ch.value.messages s
    obtain ⟨s2, h2⟩ := handleChanges_ok env hok chs s1
    exact ⟨s2, by simp [handleChanges, h1, h2]⟩

theorem handleEntries_ok (env : Env) (hok : ∀ n, env.opFails n = false) :
    ∀ (es : List WaEntry) (s : St), ∃ s', handleEntries env es s = Res.ok () s'
  | [], s => ⟨s, rfl⟩
  | e :: es, s => by
    obtain ⟨s1, h1⟩ := handleChanges_ok env hok e.changes s
    obtain ⟨s2, h2⟩ := handleEntries_ok env hok es s1
    exact ⟨s2, by simp [handleEntries, h1, h2]⟩

/-- Claim C9 (amended): once signature verification passes (or is skipped),
the handler returns the success acknowledgment `{"ok": True}` for every
payload — including one whose button-reply reference resolves to no known
request — provided every row-store and send call succeeds; but a failing
row-store or send call on the un-guarded path propagates as a transport
error instead (see the counterexample). -/
theorem claim_C9_success_ack (env : Env) (raw : List Nat) (sig : List Char)
    (payload : WaPayload) (s : St)
    (hok : ∀ n, env.opFails n = false)
    (hauth : env.wa_app_secret = [] ∨
      sig = strOf "sha256=" ++ hexChars (env.hmacSha256 (utf8Encode env.wa_app_secret) raw)) :
    ∃ s', wa_events env raw sig payload s = Res.ok () s' := by
  obtain ⟨s', hp⟩ := handleEntries_ok env hok payload.entry s
  have hproc : waProcess env payload s = Res.ok () s' := by
    unfold waProcess
    rw [hp]
  refine ⟨s', ?_⟩
  unfold wa_events
  rcases hauth with h | h
  · rw [if_neg (show ¬ env.wa_app_secret ≠ [] from fun hc => hc h)]
    exact hproc
  · by_cases hsec : env.wa_app_secret ≠ []
    · rw [if_pos hsec, if_pos h]
      exact hproc
    · rw [if_neg hsec]
      exact hproc

/-- Claim C9 witness: a concrete authenticated delivery with all external
calls succeeding is acknowledged with the success body. -/
theorem claim_C9_witness :
    ∃ s', wa_events ⟨[], fun _ _ => [], 1000, fun _ => false, fun _ => [], [], [], false, true⟩
        [] [] ⟨[⟨[⟨⟨[⟨some (strOf "text"), some (strOf "777"), some (strOf "mid"), none, none,
          some (strOf "hi")⟩]⟩⟩]⟩]⟩ ⟨⟨[], [], [], [], [], [], [], []⟩, 0⟩ = Res.ok () s' :=
  claim_C9_success_ack _ _ _ _ _ (fun _ => rfl) (Or.inl rfl)

/-- Claim C9 counterexample: an authenticated free-text delivery whose very
first row-store call (the `wa_request_links` lookup, an unguarded
`sb_select_one`) returns non-2xx makes the handler raise HTTP 502 instead
of returning the success acknowledgment — a row-store error is not
swallowed, contradicting the claim that logging or row-store insert errors
cannot cause a non-success transport-level response. -/
theorem claim_C9_counterexample :
    wa_events ⟨[], fun _ _ => [], 1000, fun _ => true, fun _ => [], [], [], false, true⟩
        [] [] ⟨[⟨[⟨⟨[⟨some (strOf "text"), some (strOf "777"), some (strOf "mid"), none, none,
          some (strOf "hi")⟩]⟩⟩]⟩]⟩ ⟨⟨[], [], [], [], [], [], [], []⟩, 0⟩ =
      Res.err 502 (strOf "db error") ⟨⟨[], [], [], [], [], [], [], []⟩, 1⟩ ∧
    (match wa_events ⟨[], fun _ _ => [], 1000, fun _ => true, fun _ => [], [], [], false, true⟩
        [] [] ⟨[⟨[⟨⟨[⟨some (strOf "text"), some (strOf "777"), some (strOf "mid"), none, none,
          some (strOf "hi")⟩]⟩⟩]⟩]⟩ ⟨⟨[], [], [], [], [], [], [], []⟩, 0⟩ with
      | Res.ok _ _ => true
      | Res.err _ _ _ => false) = false :=
  ⟨rfl, rfl⟩

/-! ### Binding lookup ignores expiry (claim C3) -/

/-- Claim C3 (amended): the free-text routing lookup checks only the
`active` flag of the binding row and ignores `expires_at` entirely: a
binding whose `expires_at` is already in the past (`row.expires_at <
env.now`) but which is still marked active is still used, so the inbound
message is logged with that binding's request id, not with a null
reference. -/
theorem claim_C3_expiry_ignored (env : Env) (s : St) (m : WaMsg) (w : List Char) (row : LinkRow)
    (hok : ∀ n, env.opFails n = false)
    (hsec : env.wa_app_secret = [])
    (htype : m.mtype = some (strOf "text"))
    (hfrom : m.from_ = some w)
    (hw : w.head? = some '+')
    (hfind : s.db.wa_request_links.find? (fun r => decide (r.wa_id = w)) = some row)
    (hactive : row.active = true)
    (hexpired : row.expires_at < env.now) :
    ∃ s', wa_events env [] [] ⟨[⟨[⟨⟨[m]⟩⟩]⟩]⟩ s = Res.ok () s' ∧
      s'.db.wa_messages = s.db.wa_messages ++
        [⟨m.id, some row.request_id, some w, strOf "inbound",
          some (m.textBody.getD []), some m⟩] := by
  unfold wa_events
  rw [if_neg (fun hc => hc hsec)]
  unfold waProcess handleEntries handleChanges handleMessages handleMessage
    upsert_conversation_on_inbound
  have ht1 : strOf "text" ≠ strOf "interactive" := by decide
  have ht2 : strOf "text" ≠ strOf "button" := by decide
  simp only [htype, hfrom, hw, Option.some.injEq, ht1, ht2, or_self, if_false, ne_eq,
    not_true_eq_false, and_false, if_true]
  simp [dbSelectLink, dbInsertMsg, dbUpsertConvInbound, hok, hfind, hactive]
  by_cases htr : truthy (some row.request_id) = true <;>
    simp [htr] <;> exact ⟨_, rfl, by simp [bump]⟩

/-- Claim C3 witness: the amended theorem applied to a concrete state whose
binding row for `+777` is active but expired (expires_at 500 < now 1000). -/
theorem claim_C3_witness :
    ∃ s', wa_events ⟨[], fun _ _ => [], 1000, fun _ => false, fun _ => [], [], [], false, true⟩
        [] [] ⟨[⟨[⟨⟨[⟨some (strOf "text"), some (strOf "+777"), some (strOf "mid"), none, none,
          some (strOf "hi")⟩]⟩⟩]⟩]⟩
        ⟨⟨[], [], [⟨strOf "+777", strOf "A", true, 100, 500, strOf "button"⟩], [], [], [], [],
          []⟩, 0⟩ = Res.ok () s' ∧
      s'.db.wa_messages =
        [⟨some (strOf "mid"), some (strOf "A"), some (strOf "+777"), strOf "inbound",
          some (strOf "hi"),
          some ⟨some (strOf "text"), some (strOf "+777"), some (strOf "mid"), none, none,
            some (strOf "hi")⟩⟩] :=
  claim_C3_expiry_ignored
    ⟨[], fun _ _ => [], 1000, fun _ => false, fun _ => [], [], [], false, true⟩
    ⟨⟨[], [], [⟨strOf "+777", strOf "A", true, 100, 500, strOf "button"⟩], [], [], [], [], []⟩, 0⟩
    ⟨some (strOf "text"), some (strOf "+777"), some (strOf "mid"), none, none, some (strOf "hi")⟩
    (strOf "+777") ⟨strOf "+777", strOf "A", true, 100, 500, strOf "button"⟩
    (fun _ => rfl) rfl rfl rfl rfl (by decide) rfl (by decide)

/-- Claim C3 counterexample: with an active binding row whose `expires_at`
(500) is in the past relative to now (1000), the free-text message is
logged with the request id of that expired binding, not with a null
request reference as the claim states. -/
theorem claim_C3_counterexample :
    (match wa_events ⟨[], fun _ _ => [], 1000, fun _ => false, fun _ => [], [], [], false, true⟩
        [] [] ⟨[⟨[⟨⟨[⟨some (strOf "text"), some (strOf "+777"), some (strOf "mid"), none, none,
          some (strOf "hi")⟩]⟩⟩]⟩]⟩
        ⟨⟨[], [], [⟨strOf "+777", strOf "A", true, 100, 500, strOf "button"⟩], [], [], [], [],
          []⟩, 0⟩ with
      | Res.ok _ s1 => s1.db.wa_messages.map (fun (r : MsgRow) => r.request_id)
      | Res.err _ _ _ => []) = [some (strOf "A")] ∧
    some (strOf "A") ≠ (none : Option (List Char)) :=
  ⟨rfl, by simp⟩

/-! ### Last-bind-wins (claim C6) -/

theorem dbSelectOutbound_ok {env : Env} {s : St} (ctx : List Char)
    (h : env.opFails s.ctr = false) :
    dbSelectOutbound env ctx s =
      Res.ok (s.db.wa_outbound_log.find? (fun r => decide (r.message_id = ctx))) (bump s) := by
  unfold dbSelectOutbound
  rw [h]
  simp

theorem dbSelectLink_ok {env : Env} {s : St} (waId : Option (List Char))
    (h : env.opFails s.ctr = false) :
    dbSelectLink env waId s =
      Res.ok (s.db.wa_request_links.find? (fun r => decide (some r.wa_id = waId))) (bump s) := by
  unfold dbSelectLink
  rw [h]
  simp

theorem dbSelectBookingByRid_ok {env : Env} {s : St} (rid : List Char)
    (h : env.opFails s.ctr = false) :
    dbSelectBookingByRid env rid s =
      Res.ok (s.db.bookings.find? (fun r => decide (r.request_id = rid))) (bump s) := by
  unfold dbSelectBookingByRid
  rw [h]
  simp

theorem dbSelectConv_ok {env : Env} {s : St} (cid : List Char)
    (h : env.opFails s.ctr = false) :
    dbSelectConv env cid s =
      Res.ok (s.db.wa_conversations.find? (fun r => decide (r.conversation_id = cid))) (bump s) := by
  unfold dbSelectConv
  rw [h]
  simp

theorem dbUpsertLink_ok {env : Env} {s : St} (row : LinkRow)
    (h : env.opFails s.ctr = false) :
    dbUpsertLink env row s =
      Res.ok () { db := { s.db with wa_request_links := upsertLink row s.db.wa_request_links }, ctr := s.ctr + 1 } := by
  unfold dbUpsertLink
  rw [h]
  simp

theorem dbInsertMsg_ok {env : Env} {s : St} (row : MsgRow)
    (h : env.opFails s.ctr = false) :
    dbInsertMsg env row s =
      Res.ok () { db := { s.db with wa_messages := s.db.wa_messages ++ [row] }, ctr := s.ctr + 1 } := by
  unfold dbInsertMsg
  rw [h]
  simp

theorem waSendText_ok {env : Env} {s : St} (h : env.opFails s.ctr = false) :
    waSendText env s = Res.ok (env.msgId s.ctr) (bump s) := by
  unfold waSendText
  rw [h]
  simp

theorem followupBlock_links (env : Env) (rid w : List Char) (s : St)
    (hok : ∀ n, env.opFails n = false) :
    (followupBlock env rid w s).db.wa_request_links = s.db.wa_request_links ∧
    (followupBlock env rid w s).db.wa_outbound_log = s.db.wa_outbound_log := by
  unfold followupBlock append_rolling_summary
  simp only [dbSelectBookingByRid_ok, dbSelectConv_ok, waSendText_ok, dbInsertMsg_ok,
    dbUpsertConvSummary, hok, Bool.false_eq_true, if_false]
  by_cases hfu : env.msgId (bump s).ctr ≠ []
  · simp only [if_pos hfu]
    repeat' split
    all_goals exact ⟨rfl, rfl⟩
  · simp only [if_neg hfu]
    repeat' split
    all_goals exact ⟨rfl, rfl⟩

theorem button_bind (env : Env) (m : WaMsg) (s : St) (w : List Char) (orow : OutboundRow)
    (hok : ∀ n, env.opFails n = false)
    (htype : m.mtype = some (strOf "interactive") ∨ m.mtype = some (strOf "button"))
    (hctx : truthy m.contextId = true)
    (hfind : s.db.wa_outbound_log.find?
      (fun r => decide (r.message_id = m.contextId.getD [])) = some orow)
    (hrid : orow.request_id ≠ [])
    (hfrom : m.from_ = some w) (hw : w.head? = some '+') :
    ∃ s', handleMessage env m s = Res.ok () s' ∧
      s'.db.wa_request_links =
        upsertLink ⟨w, orow.request_id, true, env.now, env.now + 48 * 3600, strOf "button"⟩
          s.db.wa_request_links ∧
      s'.db.wa_outbound_log = s.db.wa_outbound_log := by
  have hwne : w ≠ [] := by
    intro h
    rw [h] at hw
    simp at hw
  unfold handleMessage
  rw [if_pos htype]
  simp only [hfrom, hw, hctx, if_true, dbSelectOutbound_ok, dbUpsertLink_ok, waSendText_ok,
    dbInsertMsg_ok, hok, hfind]
  simp only [ne_eq, not_true_eq_false, and_false, if_false, Option.map_some]
  simp [truthy, hrid, hwne]
  by_cases hout : env.msgId ((bump s).ctr + 1) = [] <;>
    [simp only [if_pos hout]; simp only [if_neg hout]] <;>
    exact ⟨_, rfl, by simp [bump, (followupBlock_links _ _ _ _ hok).1],
      by simp [bump, (followupBlock_links _ _ _ _ hok).2]⟩

theorem upsertLink_cons_ne {row r : LinkRow} {l : List LinkRow} (hk : ¬ r.wa_id = row.wa_id) :
    upsertLink row (r :: l) = r :: upsertLink row l := by
  by_cases hany : l.any (fun x => x.wa_id = row.wa_id) <;>
    simp [upsertLink, hk, hany]

theorem map_subst_id {row : LinkRow} : ∀ {l : List LinkRow},
    (∀ x ∈ l, ¬ x.wa_id = row.wa_id) →
    l.map (fun x => if x.wa_id = row.wa_id then row else x) = l := by
  intro l
  induction l with
  | nil => intro _; rfl
  | cons a t iht =>
    intro hall
    simp only [List.map_cons, if_neg (hall a (List.mem_cons_self a t)),
      iht (fun x hx => hall x (List.mem_cons_of_mem a hx))]

theorem upsertLink_filter {row : LinkRow} : ∀ {l : List LinkRow},
    (l.map (fun r => r.wa_id)).Nodup →
    (upsertLink row l).filter (fun r => decide (r.wa_id = row.wa_id)) = [row] := by
  intro l
  induction l with
  | nil => intro _; simp [upsertLink]
  | cons r l ih =>
    intro hnd
    simp only [List.map_cons, List.nodup_cons, List.mem_map] at hnd
    obtain ⟨hr, hl⟩ := hnd
    by_cases hk : r.wa_id = row.wa_id
    · have hmap : l.map (fun x => if x.wa_id = row.wa_id then row else x) = l :=
        map_subst_id (fun x hx he => hr ⟨x, hx, by rw [he, ← hk]⟩)
      have hnone : l.filter (fun r => decide (r.wa_id = row.wa_id)) = [] := by
        rw [List.filter_eq_nil_iff]
        intro x hx
        simp only [decide_eq_true_eq]
        intro he
        exact hr ⟨x, hx, by rw [he, ← hk]⟩
      simp [upsertLink, hk, hmap, hnone]
    · rw [upsertLink_cons_ne hk]
      simp only [List.filter_cons, decide_eq_true_eq, hk, if_false]
      exact ih hl

theorem upsertLink_nodup {row : LinkRow} : ∀ {l : List LinkRow},
    (l.map (fun r => r.wa_id)).Nodup →
    ((upsertLink row l).map (fun r => r.wa_id)).Nodup := by
  intro l
  induction l with
  | nil => intro _; simp [upsertLink]
  | cons r l ih =>
    intro hnd
    simp only [List.map_cons, List.nodup_cons, List.mem_map] at hnd
    obtain ⟨hr, hl⟩ := hnd
    by_cases hk : r.wa_id = row.wa_id
    · have hmap : l.map (fun x => if x.wa_id = row.wa_id then row else x) = l :=
        map_subst_id (fun x hx he => hr ⟨x, hx, by rw [he, ← hk]⟩)
      have : upsertLink row (r :: l) = row :: l := by
        simp [upsertLink, hk, hmap]
      rw [this]
      simp only [List.map_cons, List.nodup_cons, List.mem_map]
      constructor
      · intro ⟨x, hx, he⟩
        exact hr ⟨x, hx, by rw [he, ← hk]⟩
      · exact hl
    · rw [upsertLink_cons_ne hk]
      simp only [List.map_cons, List.nodup_cons, List.mem_map]
      constructor
      · intro ⟨x, hx, he⟩
        -- x is in upsertLink row l: either in l or equal to row
        by_cases hxl : x ∈ l
        · exact hr ⟨x, hxl, he⟩
        · -- x = row (the appended or substituted element)
          have hxr : x.wa_id = row.wa_id := by
            unfold upsertLink at hx
            split at hx
            · rcases List.mem_map.mp hx with ⟨y, hy, hyx⟩
              by_cases hyk : y.wa_id = row.wa_id
              · rw [if_pos hyk] at hyx
                rw [← hyx]
              · rw [if_neg hyk] at hyx
                exact absurd (hyx ▸ hy) hxl
            · rcases List.mem_append.mp hx with h | h
              · exact absurd h hxl
              · rw [List.mem_singleton.mp h]
          exact hk (by rw [← he, hxr])
      · exact ih hl

theorem wa_events_button (env : Env) (m : WaMsg) (s : St) (w : List Char) (orow : OutboundRow)
    (hok : ∀ n, env.opFails n = false)
    (hsec : env.wa_app_secret = [])
    (htype : m.mtype = some (strOf "interactive") ∨ m.mtype = some (strOf "button"))
    (hctx : truthy m.contextId = true)
    (hfind : s.db.wa_outbound_log.find?
      (fun r => decide (r.message_id = m.contextId.getD [])) = some orow)
    (hrid : orow.request_id ≠ [])
    (hfrom : m.from_ = some w) (hw : w.head? = some '+') :
    ∃ s', wa_events env [] [] ⟨[⟨[⟨⟨[m]⟩⟩]⟩]⟩ s = Res.ok () s' ∧
      s'.db.wa_request_links =
        upsertLink ⟨w, orow.request_id, true, env.now, env.now + 48 * 3600, strOf "button"⟩
          s.db.wa_request_links ∧
      s'.db.wa_outbound_log = s.db.wa_outbound_log := by
  obtain ⟨s', hmsg, hl, ho⟩ := button_bind env m s w orow hok htype hctx hfind hrid hfrom hw
  refine ⟨s', ?_, hl, ho⟩
  unfold wa_events
  rw [if_neg (fun hc => hc hsec)]
  unfold waProcess handleEntries handleChanges handleMessages
  rw [hmsg]
  rfl

/-- Claim C6: binding a messaging identity to request A and then to request
B leaves exactly one binding row for that identity — active and pointing to
B — because the upsert is keyed on `wa_id` and replaces the prior binding
(last-bind-wins); key-uniqueness of the binding table is preserved. -/
theorem claim_C6_last_bind_wins (env1 env2 : Env) (m1 m2 : WaMsg) (s : St) (w : List Char)
    (orow1 orow2 : OutboundRow)
    (hok1 : ∀ n, env1.opFails n = false) (hok2 : ∀ n, env2.opFails n = false)
    (hsec1 : env1.wa_app_secret = []) (hsec2 : env2.wa_app_secret = [])
    (hnodup : (s.db.wa_request_links.map (fun r => r.wa_id)).Nodup)
    (htype1 : m1.mtype = some (strOf "interactive") ∨ m1.mtype = some (strOf "button"))
    (htype2 : m2.mtype = some (strOf "interactive") ∨ m2.mtype = some (strOf "button"))
    (hctx1 : truthy m1.contextId = true) (hctx2 : truthy m2.contextId = true)
    (hfind1 : s.db.wa_outbound_log.find?
      (fun r => decide (r.message_id = m1.contextId.getD [])) = some orow1)
    (hfind2 : s.db.wa_outbound_log.find?
      (fun r => decide (r.message_id = m2.contextId.getD [])) = some orow2)
    (hridA : orow1.request_id ≠ []) (hridB : orow2.request_id ≠ [])
    (hfrom1 : m1.from_ = some w) (hfrom2 : m2.from_ = some w)
    (hw : w.head? = some '+') :
    ∃ s1 s2, wa_events env1 [] [] ⟨[⟨[⟨⟨[m1]⟩⟩]⟩]⟩ s = Res.ok () s1 ∧
      wa_events env2 [] [] ⟨[⟨[⟨⟨[m2]⟩⟩]⟩]⟩ s1 = Res.ok () s2 ∧
      s2.db.wa_request_links.filter (fun r => decide (r.wa_id = w)) =
        [⟨w, orow2.request_id, true, env2.now, env2.now + 48 * 3600, strOf "button"⟩] ∧
      (s2.db.wa_request_links.map (fun r => r.wa_id)).Nodup := by
  obtain ⟨s1, h1, hl1, ho1⟩ :=
    wa_events_button env1 m1 s w orow1 hok1 hsec1 htype1 hctx1 hfind1 hridA hfrom1 hw
  have hfind2' : s1.db.wa_outbound_log.find?
      (fun r => decide (r.message_id = m2.contextId.getD [])) = some orow2 := by
    rw [ho1]
    exact hfind2
  obtain ⟨s2, h2, hl2, ho2⟩ :=
    wa_events_button env2 m2 s1 w orow2 hok2 hsec2 htype2 hctx2 hfind2' hridB hfrom2 hw
  have hnd1 : (s1.db.wa_request_links.map (fun r => r.wa_id)).Nodup := by
    rw [hl1]
    exact upsertLink_nodup hnodup
  refine ⟨s1, s2, h1, h2, ?_, ?_⟩
  · rw [hl2]
    exact @upsertLink_filter
      ⟨w, orow2.request_id, true, env2.now, env2.now + 48 * 3600, strOf "button"⟩ _ hnd1
  · rw [hl2]
    exact upsertLink_nodup hnd1

/-- Claim C6 witness: binding `+777` to request A via `ctx1` and then to
request B via `ctx2` leaves exactly the single active binding row for B. -/
theorem claim_C6_witness :
    ∃ s1 s2, wa_events ⟨[], fun _ _ => [], 1000, fun _ => false, fun _ => [], [], [], false, true⟩
        [] [] ⟨[⟨[⟨⟨[⟨some (strOf "button"), some (strOf "+777"), some (strOf "mid1"),
          some (strOf "ctx1"), some (strOf "Reply"), none⟩]⟩⟩]⟩]⟩
        ⟨⟨[], [⟨strOf "ctx1", strOf "+777", strOf "A", strOf "session_button"⟩,
          ⟨strOf "ctx2", strOf "+777", strOf "B", strOf "session_button"⟩], [], [], [], [], [],
          []⟩, 0⟩ = Res.ok () s1 ∧
      wa_events ⟨[], fun _ _ => [], 2000, fun _ => false, fun _ => [], [], [], false, true⟩
        [] [] ⟨[⟨[⟨⟨[⟨some (strOf "button"), some (strOf "+777"), some (strOf "mid2"),
          some (strOf "ctx2"), some (strOf "Reply"), none⟩]⟩⟩]⟩]⟩ s1 = Res.ok () s2 ∧
      s2.db.wa_request_links.filter (fun r => decide (r.wa_id = strOf "+777")) =
        [⟨strOf "+777", strOf "B", true, 2000, 2000 + 48 * 3600, strOf "button"⟩] ∧
      (s2.db.wa_request_links.map (fun r => r.wa_id)).Nodup :=
  claim_C6_last_bind_wins
    ⟨[], fun _ _ => [], 1000, fun _ => false, fun _ => [], [], [], false, true⟩
    ⟨[], fun _ _ => [], 2000, fun _ => false, fun _ => [], [], [], false, true⟩
    ⟨some (strOf "button"), some (strOf "+777"), some (strOf "mid1"), some (strOf "ctx1"),
      some (strOf "Reply"), none⟩
    ⟨some (strOf "button"), some (strOf "+777"), some (strOf "mid2"), some (strOf "ctx2"),
      some (strOf "Reply"), none⟩
    ⟨⟨[], [⟨strOf "ctx1", strOf "+777", strOf "A", strOf "session_button"⟩,
      ⟨strOf "ctx2", strOf "+777", strOf "B", strOf "session_button"⟩], [], [], [], [], [],
      []⟩, 0⟩
    (strOf "+777")
    ⟨strOf "ctx1", strOf "+777", strOf "A", strOf "session_button"⟩
    ⟨strOf "ctx2", strOf "+777", strOf "B", strOf "session_button"⟩
    (fun _ => rfl) (fun _ => rfl) rfl rfl (by decide) (Or.inr rfl) (Or.inr rfl)
    (by decide) (by decide) (by decide) (by decide) (by decide) (by decide) rfl rfl (by decide)

/-! ### Booking intake (claims C1 and C7) and booking update (claim C8) -/

theorem llmGenerate_ok {env : Env} {s : St} (h : env.opFails s.ctr = false) :
    llmGenerate env s = Res.ok env.llmBody (bump s) := by
  unfold llmGenerate
  rw [h]
  simp

theorem sendCustomerEmail_ok {env : Env} {s : St} (row : EmailRow)
    (h : env.opFails s.ctr = false) :
    sendCustomerEmail env row s =
      Res.ok () { db := { s.db with custEmails := s.db.custEmails ++ [row] }, ctr := s.ctr + 1 } := by
  unfold sendCustomerEmail
  rw [h]
  simp

theorem sendTeamEmail_ok {env : Env} {s : St} (row : EmailRow)
    (h : env.opFails s.ctr = false) :
    sendTeamEmail env row s =
      Res.ok () { db := { s.db with teamEmails := s.db.teamEmails ++ [row] }, ctr := s.ctr + 1 } := by
  unfold sendTeamEmail
  rw [h]
  simp

theorem dbInsertBooking_ok {env : Env} {s : St} (row : BookingRow)
    (h : env.opFails s.ctr = false) :
    dbInsertBooking env row s =
      Res.ok () { db := { s.db with bookings := s.db.bookings ++ [row] }, ctr := s.ctr + 1 } := by
  unfold dbInsertBooking
  rw [h]
  simp

theorem testdrive_ok (env : Env) (p : TdPayload) (s : St)
    (hok : ∀ n, env.opFails n = false)
    (hvalid : truthy p.fullName ∧ truthy p.email ∧ truthy p.vehicle ∧ truthy p.date ∧
      truthy p.location ∧ truthy p.currentVehicle ∧ truthy p.timeFrame)
    (hemail : env.emailCfgOk = true) :
    ∃ s', testdrive_webhook env p s = Res.ok () s' ∧
      s'.db.bookings = s.db.bookings ++
        [mkBookingRow env p env.uuid4 env.llmBody (initialNumericScore p.timeFrame)
          (to_e164 p.phone)] ∧
      s'.db.custEmails = s.db.custEmails ++ [⟨p.email.getD [], tdSubject (p.vehicle.getD [])⟩] ∧
      s'.db.kickoffs = (if truthy (to_e164 p.phone) then s.db.kickoffs ++ [env.uuid4]
        else s.db.kickoffs) := by
  unfold testdrive_webhook testdrive_core
  rw [if_neg (by simp [hvalid.1, hvalid.2.1, hvalid.2.2.1, hvalid.2.2.2.1, hvalid.2.2.2.2.1,
    hvalid.2.2.2.2.2.1, hvalid.2.2.2.2.2.2])]
  simp only [llmGenerate_ok, sendCustomerEmail_ok, sendTeamEmail_ok, dbInsertBooking_ok,
    hok, hemail]
  by_cases hteam : env.teamCfg = true <;>
    by_cases htr : truthy (to_e164 p.phone) = true <;>
      simp only [hteam, htr, if_true, Bool.false_eq_true, if_false,
        Bool.not_eq_true] <;>
      exact ⟨_, rfl, by simp [bump], by simp [bump], by simp [bump, htr]⟩

/-! ### No idempotency on booking intake (claim C1) -/

/-- Claim C1 (amended): the booking-intake endpoint performs no idempotency
check at all — `request_id` is a fresh `uuid4()` generated on every call
(main.py line 872) and no lookup of an existing BookingRequest precedes the
side effects — so submitting the same payload twice repeats every side
effect: two content drafts, two customer emails, two inserted booking rows,
and two success responses. -/
theorem claim_C1_no_idempotency (env1 env2 : Env) (p : TdPayload) (s : St)
    (hok1 : ∀ n, env1.opFails n = false) (hok2 : ∀ n, env2.opFails n = false)
    (hvalid : truthy p.fullName ∧ truthy p.email ∧ truthy p.vehicle ∧ truthy p.date ∧
      truthy p.location ∧ truthy p.currentVehicle ∧ truthy p.timeFrame)
    (he1 : env1.emailCfgOk = true) (he2 : env2.emailCfgOk = true) :
    ∃ s1 s2, testdrive_webhook env1 p s = Res.ok () s1 ∧
      testdrive_webhook env2 p s1 = Res.ok () s2 ∧
      s2.db.bookings.length = s.db.bookings.length + 2 ∧
      s2.db.custEmails.length = s.db.custEmails.length + 2 := by
  obtain ⟨s1, h1, hb1, hc1, _⟩ := testdrive_ok env1 p s hok1 hvalid he1
  obtain ⟨s2, h2, hb2, hc2, _⟩ := testdrive_ok env2 p s1 hok2 hvalid he2
  refine ⟨s1, s2, h1, h2, ?_, ?_⟩
  · rw [hb2, hb1]; simp
  · rw [hc2, hc1]; simp

/-- Claim C1 witness: the amended theorem at a concrete payload submitted
twice from the empty store: both calls succeed and the store ends with two
booking rows and two customer emails. -/
theorem claim_C1_witness :
    ∃ s1 s2,
      testdrive_webhook ⟨[], fun _ _ => [], 1000, fun _ => false, fun _ => [],
          strOf "rid-1", strOf "BODY", false, true⟩
        ⟨some (strOf "Jane Roe"), some (strOf "j@x.com"), some (strOf "AOE Volt"),
          some (strOf "2025-09-10"), some (strOf "NYC"), some (strOf "exploring"),
          some (strOf "0-3-months"), none⟩ ⟨⟨[], [], [], [], [], [], [], []⟩, 0⟩ =
        Res.ok () s1 ∧
      testdrive_webhook ⟨[], fun _ _ => [], 1000, fun _ => false, fun _ => [],
          strOf "rid-2", strOf "BODY", false, true⟩
        ⟨some (strOf "Jane Roe"), some (strOf "j@x.com"), some (strOf "AOE Volt"),
          some (strOf "2025-09-10"), some (strOf "NYC"), some (strOf "exploring"),
          some (strOf "0-3-months"), none⟩ s1 = Res.ok () s2 ∧
      s2.db.bookings.length = 2 ∧
      s2.db.custEmails.length = 2 :=
  claim_C1_no_idempotency
    ⟨[], fun _ _ => [], 1000, fun _ => false, fun _ => [], strOf "rid-1", strOf "BODY",
      false, true⟩
    ⟨[], fun _ _ => [], 1000, fun _ => false, fun _ => [], strOf "rid-2", strOf "BODY",
      false, true⟩
    ⟨some (strOf "Jane Roe"), some (strOf "j@x.com"), some (strOf "AOE Volt"),
      some (strOf "2025-09-10"), some (strOf "NYC"), some (strOf "exploring"),
      some (strOf "0-3-months"), none⟩
    ⟨⟨[], [], [], [], [], [], [], []⟩, 0⟩
    (fun _ => rfl) (fun _ => rfl) (by decide) rfl rfl

/-- Claim C1 counterexample: submitting the identical booking payload twice
leaves two persisted booking rows and two customer emails — not the
"exactly one persisted booking row, exactly one customer email" the claim
states — because no idempotency key is consulted before the side effects. -/
theorem claim_C1_counterexample :
    (match testdrive_webhook ⟨[], fun _ _ => [], 1000, fun _ => false, fun _ => [],
          strOf "rid-1", strOf "BODY", false, true⟩
        ⟨some (strOf "Jane Roe"), some (strOf "j@x.com"), some (strOf "AOE Volt"),
          some (strOf "2025-09-10"), some (strOf "NYC"), some (strOf "exploring"),
          some (strOf "0-3-months"), none⟩ ⟨⟨[], [], [], [], [], [], [], []⟩, 0⟩ with
      | Res.ok _ s1 =>
        (match testdrive_webhook ⟨[], fun _ _ => [], 1000, fun _ => false, fun _ => [],
              strOf "rid-2", strOf "BODY", false, true⟩
            ⟨some (strOf "Jane Roe"), some (strOf "j@x.com"), some (strOf "AOE Volt"),
              some (strOf "2025-09-10"), some (strOf "NYC"), some (strOf "exploring"),
              some (strOf "0-3-months"), none⟩ s1 with
          | Res.ok _ s2 => some (s2.db.bookings.length, s2.db.custEmails.length)
          | Res.err _ _ _ => none)
      | Res.err _ _ _ => none) = some (2, 2) ∧ (2 : Nat) ≠ 1 :=
  ⟨rfl, by decide⟩

/-! ### Phone normalization and kickoff (claim C7) -/

/-- Claim C7 (amended): `to_e164` does map `"+1 (555) 123-4567"` to
`"+15551234567"`, but `"555-1234"` does NOT fail normalization: its seven
digits get a `+` prepended and `"+5551234"` matches the `\+\d{7,15}` check,
so a booking whose phone is `"555-1234"` does trigger the WhatsApp session
kickoff (main.py lines 1151-1153). -/
theorem claim_C7_short_phone_kickoff (env : Env) (p : TdPayload) (s : St)
    (hok : ∀ n, env.opFails n = false)
    (hvalid : truthy p.fullName ∧ truthy p.email ∧ truthy p.vehicle ∧ truthy p.date ∧
      truthy p.location ∧ truthy p.currentVehicle ∧ truthy p.timeFrame)
    (hemail : env.emailCfgOk = true)
    (hphone : p.phone = some (strOf "555-1234")) :
    to_e164 (some (strOf "+1 (555) 123-4567")) = some (strOf "+15551234567") ∧
    to_e164 p.phone = some (strOf "+5551234") ∧
    ∃ s', testdrive_webhook env p s = Res.ok () s' ∧
      s'.db.kickoffs = s.db.kickoffs ++ [env.uuid4] := by
  have hph : to_e164 p.phone = some (strOf "+5551234") := by rw [hphone]; rfl
  obtain ⟨s', hrun, _, _, hk⟩ := testdrive_ok env p s hok hvalid hemail
  refine ⟨rfl, hph, s', hrun, ?_⟩
  rw [hk, if_pos (by rw [hph]; rfl)]

/-- Claim C7 witness: the amended theorem at a concrete booking whose phone
is `"555-1234"`: the call succeeds and a kickoff is scheduled. -/
theorem claim_C7_witness :
    to_e164 (some (strOf "+1 (555) 123-4567")) = some (strOf "+15551234567") ∧
    to_e164 (some (strOf "555-1234")) = some (strOf "+5551234") ∧
    ∃ s', testdrive_webhook ⟨[], fun _ _ => [], 1000, fun _ => false, fun _ => [],
        strOf "rid-7", strOf "BODY", false, true⟩
      ⟨some (strOf "Jane Roe"), some (strOf "j@x.com"), some (strOf "AOE Volt"),
        some (strOf "2025-09-10"), some (strOf "NYC"), some (strOf "exploring"),
        some (strOf "0-3-months"), some (strOf "555-1234")⟩
      ⟨⟨[], [], [], [], [], [], [], []⟩, 0⟩ = Res.ok () s' ∧
      s'.db.kickoffs = [] ++ [strOf "rid-7"] :=
  claim_C7_short_phone_kickoff
    ⟨[], fun _ _ => [], 1000, fun _ => false, fun _ => [], strOf "rid-7", strOf "BODY",
      false, true⟩
    ⟨some (strOf "Jane Roe"), some (strOf "j@x.com"), some (strOf "AOE Volt"),
      some (strOf "2025-09-10"), some (strOf "NYC"), some (strOf "exploring"),
      some (strOf "0-3-months"), some (strOf "555-1234")⟩
    ⟨⟨[], [], [], [], [], [], [], []⟩, 0⟩
    (fun _ => rfl) (by decide) rfl rfl

/-- Claim C7 counterexample: `"555-1234"` normalizes to `"+5551234"` rather
than failing, and a booking carrying that phone ends with one scheduled
kickoff, contradicting the claim that it must not trigger one. -/
theorem claim_C7_counterexample :
    to_e164 (some (strOf "555-1234")) = some (strOf "+5551234") ∧
    some (strOf "+5551234") ≠ (none : Option (List Char)) ∧
    (match testdrive_webhook ⟨[], fun _ _ => [], 1000, fun _ => false, fun _ => [],
        strOf "rid-7", strOf "BODY", false, true⟩
      ⟨some (strOf "Jane Roe"), some (strOf "j@x.com"), some (strOf "AOE Volt"),
        some (strOf "2025-09-10"), some (strOf "NYC"), some (strOf "exploring"),
        some (strOf "0-3-months"), some (strOf "555-1234")⟩
      ⟨⟨[], [], [], [], [], [], [], []⟩, 0⟩ with
      | Res.ok _ s1 => s1.db.kickoffs.length
      | Res.err _ _ _ => 0) = 1 :=
  ⟨rfl, by simp, rfl⟩

/-! ### Partial booking update crashes without a score (claim C8) -/

/-- Claim C8 (code bug): `if request_body.lead_score is None:` (main.py line
475) is dedented out of the `numeric_lead_score is not None` block, so its
`_label_from_numeric(n)` argument reads a name `n` bound only when a numeric
score was supplied.  A partial update carrying only `action_status` —
exactly the "absent fields leave the stored values unchanged and the
request succeeds" case of the claim — therefore raises `NameError`, which
the catch-all turns into HTTP 500 and no update happens; the threshold
derivation itself does work when a numeric score accompanies the request
(12 ≥ 10 maps to Hot). -/
theorem claim_C8_dedent_namerror :
    update_booking ⟨[], fun _ _ => [], 1000, fun _ => false, fun _ => [], [], [], false, true⟩
      ⟨strOf "r1", some (strOf "Contacted"), none, none, none, none⟩
      ⟨⟨[⟨strOf "r1", strOf "Jane Roe", strOf "j@x.com", strOf "AOE Volt",
          strOf "2025-09-10", strOf "NYC", strOf "exploring", strOf "0-3-months",
          strOf "S", strOf "B", strOf "Warm", 7, 900, strOf "New", [], none, none, none⟩],
        [], [], [], [], [], [], []⟩, 0⟩ =
      Res.err 500 (strOf "Internal server error: name n is not defined")
        ⟨⟨[⟨strOf "r1", strOf "Jane Roe", strOf "j@x.com", strOf "AOE Volt",
            strOf "2025-09-10", strOf "NYC", strOf "exploring", strOf "0-3-months",
            strOf "S", strOf "B", strOf "Warm", 7, 900, strOf "New", [], none, none, none⟩],
          [], [], [], [], [], [], []⟩, 0⟩ ∧
    (match update_booking ⟨[], fun _ _ => [], 1000, fun _ => false, fun _ => [], [], [],
          false, true⟩
        ⟨strOf "r1", none, none, some 12, none, none⟩
        ⟨⟨[⟨strOf "r1", strOf "Jane Roe", strOf "j@x.com", strOf "AOE Volt",
            strOf "2025-09-10", strOf "NYC", strOf "exploring", strOf "0-3-months",
            strOf "S", strOf "B", strOf "Warm", 7, 900, strOf "New", [], none, none, none⟩],
          [], [], [], [], [], [], []⟩, 0⟩ with
      | Res.ok rows _ => rows.map (fun r => (r.lead_score, r.numeric_lead_score))
      | Res.err _ _ _ => []) = [(strOf "Hot", 12)] :=
  ⟨rfl, rfl⟩
